import Mathlib

/-!
Shallow embedding of the field codecs of `peewee_extra_fields` (validators and
encode/decode conversions) together with proofs about them.

Conventions used throughout:
* Python exceptions raised by a `db_value`/`python_value` body are modelled by
  `Except PyErr`; the error kind records which Python exception class escapes.
* `str` values are Lean `String`s; bytes are `List Nat`; `None` is `Option.none`.
* Python `str.strip` / `str.lower` / `str.upper` / `str.replace(c, "")` are
  modelled for ASCII data by `pyStrip` / `pyLower` / `pyUpper` / `removeChar`.
* The bundled JSON reference tables (`ISO3166`, `INT2COUNTRY`, ...) are data
  files that ship with the package; the embedding takes them as parameters.
* External primitives out of the codec core (hashing, pickling, `ipaddress`,
  `colorsys`, XML and JSON parsing) are taken as function parameters.
-/

namespace PeeweeExtra

/-- The Python exception classes that can escape the embedded code paths. -/
inductive PyErr where
  | valueError
  | typeError
  | nameError
  | keyError
deriving DecidableEq, Repr

instance {ε α : Type} [DecidableEq ε] [DecidableEq α] :
    DecidableEq (Except ε α) := fun a b =>
  match a, b with
  | .ok x, .ok y =>
    if h : x = y then .isTrue (by rw [h]) else .isFalse (by simp [h])
  | .error x, .error y =>
    if h : x = y then .isTrue (by rw [h]) else .isFalse (by simp [h])
  | .ok _, .error _ => .isFalse (by simp)
  | .error _, .ok _ => .isFalse (by simp)

/-- Whitespace as stripped by Python `str.strip()` (ASCII fragment). -/
def pySpace (c : Char) : Bool :=
  c = ' ' ∨ c = '\t' ∨ c = '\n' ∨ c = '\r' ∨ c = '\x0b' ∨ c = '\x0c'

/-- `str.strip()` on a character list: drop whitespace from both ends. -/
def stripList (l : List Char) : List Char :=
  ((l.dropWhile pySpace).reverse.dropWhile pySpace).reverse

/-- `str.strip()`. -/
def pyStrip (s : String) : String := String.mk (stripList s.toList)

/-- `str.lower()` (ASCII fragment; `Char.toLower` maps exactly `A`-`Z`). -/
def pyLower (s : String) : String := String.mk (s.toList.map Char.toLower)

/-- `str.upper()` (ASCII fragment; `Char.toUpper` maps exactly `a`-`z`). -/
def pyUpper (s : String) : String := String.mk (s.toList.map Char.toUpper)

/-- `str.replace(c, "")`: removing every occurrence of a single character. -/
def removeChar (c : Char) (s : String) : String :=
  String.mk (s.toList.filter (fun x => x ≠ c))

/-- `str.isdigit()` (ASCII fragment): nonempty and all decimal digits. -/
def pyIsdigit (s : String) : Bool :=
  !(s == "") && s.toList.all (fun c => '0' ≤ c ∧ c ≤ '9')

/-- Value of a decimal-digit character list read as one number (`int(...)` of a
digit string, which is how the code consumes the strings it builds). -/
def natOfDigits (l : List Char) : Nat :=
  l.foldl (fun a c => a * 10 + (c.toNat - 48)) 0

/-! ### Positive integer fields (`PositiveSmallIntegerField`,
`PositiveIntegerField`, `PositiveBigIntegerField`)

The three classes carry the textually identical `db_value` body, differing only
in the class attributes `min`/`max`. -/

/-- The shared body: `if value and isinstance(value, int): if value < min or
value > max: raise ValueError(...)` then `return value`.  `if value` is int
truthiness, so `0` bypasses the range check and is returned unchanged. -/
def positiveDbValue (lo hi : Int) (value : Int) : Except PyErr Int :=
  if value ≠ 0 then
    if value < lo ∨ value > hi then .error .valueError else .ok value
  else .ok value

def positiveSmallIntegerField_db_value : Int → Except PyErr Int :=
  positiveDbValue 0 32767

def positiveIntegerField_db_value : Int → Except PyErr Int :=
  positiveDbValue 0 2147483647

def positiveBigIntegerField_db_value : Int → Except PyErr Int :=
  positiveDbValue 0 9223372036854775807

/-- The read-side conversion of the three positive-integer fields is inherited
from the external peewee `IntegerField`, whose coercion `int(...)` is the
identity on integers. -/
def positiveField_python_value (v : Int) : Int := v

/-! ### `IANCodeField` (EAN/IAN check digit) -/

/-- `int(c)` for one character (ASCII decimal digits; exotic Unicode digits are
out of modelling scope). -/
def pyIntChar (c : Char) : Option Nat :=
  if c.isDigit then some (c.toNat - 48) else none

/-- `sum(int(digit) * (3, 1)[i % 2] for i, digit in enumerate(reversed(value[:-1])))`:
the list argument is already reversed, `i` counts from 0. `none` models the
`ValueError` that `int` raises on a non-digit. -/
def ianSumAux : List Char → Nat → Option Nat
  | [], _ => some 0
  | c :: cs, i =>
    match pyIntChar c, ianSumAux cs (i + 1) with
    | some d, some rest => some (d * (if i % 2 = 0 then 3 else 1) + rest)
    | _, _ => none

/-- Result of `IANCodeField.get_ian_checksum`: either the checksum string, or —
after the `except ValueError as error: return error` branch — the caught
exception object returned as an ordinary value. -/
inductive IanChecksum where
  | str (s : String)
  | errObject
deriving DecidableEq, Repr

/-- `IANCodeField.get_ian_checksum`.  Note the missing outer `% 10`: the code
computes `str(10 - (calculated_checksum % 10))`, which is `"10"` whenever the
weighted sum is divisible by 10. -/
def get_ian_checksum (value : String) : IanChecksum :=
  match ianSumAux value.toList.dropLast.reverse 0 with
  | some s => .str (Nat.repr (10 - s % 10))
  | none => .errObject

/-- `value[-1]` as a 1-character string (the code compares the checksum string
against this). -/
def lastCharStr (s : String) : String :=
  match s.toList.getLast? with
  | some c => String.mk [c]
  | none => ""

/-- `IANCodeField.db_value` (string branch; non-strings pass through
unchanged).  When `get_ian_checksum` returns the exception object, the
comparison `!= value[-1]` is true, so the value is rejected. -/
def iANCodeField_db_value (value : String) : Except PyErr String :=
  let v := pyStrip value
  if v = "" then .error .valueError
  else if v.length > 13 then .error .valueError
  else if v.length > 7 ∧ get_ian_checksum v ≠ .str (lastCharStr v) then
    .error .valueError
  else .ok v

/-- The check-digit rule as the spec states it:
`(10 - (sum mod 10)) mod 10`. -/
def spec_ian_check_digit (sum : Nat) : Nat := (10 - sum % 10) % 10

/-! ### Python `int(s)` / `int(s, 16)` literal parsing -/

/-- One hexadecimal digit (Python accepts both letter cases in base 16). -/
def hexDigitVal (c : Char) : Option Nat :=
  if '0' ≤ c ∧ c ≤ '9' then some (c.toNat - 48)
  else if 'a' ≤ c ∧ c ≤ 'f' then some (c.toNat - 87)
  else if 'A' ≤ c ∧ c ≤ 'F' then some (c.toNat - 55)
  else none

/-- One decimal digit. -/
def decDigitVal (c : Char) : Option Nat :=
  if c.isDigit then some (c.toNat - 48) else none

/-- Digit tail of an integer literal: further digits, with single underscores
allowed only between digits. -/
def pyIntDigitsRest (dv : Char → Option Nat) (base : Nat) :
    Nat → List Char → Option Nat
  | acc, [] => some acc
  | acc, c :: r =>
    if c = '_' then
      match r with
      | [] => none
      | c2 :: r2 =>
        match dv c2 with
        | some d => pyIntDigitsRest dv base (acc * base + d) r2
        | none => none
    else
      match dv c with
      | some d => pyIntDigitsRest dv base (acc * base + d) r
      | none => none

/-- The digit part proper: first digit, then `pyIntDigitsRest`. -/
def pyIntFromDigits (dv : Char → Option Nat) (base : Nat) (sgn : Int) :
    List Char → Option Int
  | c :: r =>
    (dv c).bind (fun d =>
      (pyIntDigitsRest dv base d r).map (fun n => sgn * (n : Int)))
  | [] => none

/-- After the optional sign: the optional `0x`/`0X` prefix (possibly followed
by one underscore), then the digit string. -/
def pyIntAfterSign (dv : Char → Option Nat) (base : Nat) (allowPrefix : Bool)
    (sgn : Int) (l2 : List Char) : Option Int :=
  if allowPrefix ∧ (l2.take 2 = ['0', 'x'] ∨ l2.take 2 = ['0', 'X']) then
    (if (l2.drop 2).take 1 = ['_'] then pyIntFromDigits dv base sgn (l2.drop 3)
     else pyIntFromDigits dv base sgn (l2.drop 2))
  else pyIntFromDigits dv base sgn l2

/-- `int(s, base)` for bases 10 and 16 (ASCII fragment, matching CPython):
surrounding whitespace, an optional sign, for base 16 an optional `0x`/`0X`
prefix (which may be followed by one underscore), then a nonempty digit string
with single underscores between digits. -/
def pyIntCore (dv : Char → Option Nat) (base : Nat) (allowPrefix : Bool)
    (l : List Char) : Option Int :=
  if (stripList l).take 1 = ['+'] then
    pyIntAfterSign dv base allowPrefix 1 ((stripList l).drop 1)
  else if (stripList l).take 1 = ['-'] then
    pyIntAfterSign dv base allowPrefix (-1) ((stripList l).drop 1)
  else pyIntAfterSign dv base allowPrefix 1 (stripList l)

/-- `int(s, 16)`. -/
def pyIntHex (s : String) : Option Int := pyIntCore hexDigitVal 16 true s.toList

/-- `int(s)` (base 10). -/
def pyIntDec (s : String) : Option Int := pyIntCore decDigitVal 10 false s.toList

/-! ### `USSocialSecurityNumberField` -/

/-- `str.startswith(p)`: the characters of `p` begin the string. -/
def pyStartsWith (s p : String) : Bool := p.toList.isPrefixOf s.toList

/-- The `[-\ ]?` separator class of the SSN regex. -/
def ssnSep (c : Char) : Bool := c = '-' ∨ c = ' '

/-- Consume the optional separator.  The digit and separator classes are
disjoint and the pattern is `$`-anchored, so greedy consumption is a complete
implementation of the regex's backtracking. -/
def consumeSep (l : List Char) : List Char :=
  match l with
  | c :: r => if ssnSep c then r else c :: r
  | [] => []

/-- Anchored match of `^(?P<area>\d{3})[-\ ]?(?P<group>\d{2})[-\ ]?(?P<sri>\d{4})$`,
returning the three captured groups. -/
def ssnParse (l : List Char) : Option (List Char × List Char × List Char) :=
  match l with
  | a :: b :: c :: rest =>
    if a.isDigit ∧ b.isDigit ∧ c.isDigit then
      match consumeSep rest with
      | d :: e :: rest2 =>
        if d.isDigit ∧ e.isDigit then
          match consumeSep rest2 with
          | f :: g :: h :: i :: rest3 =>
            if (f.isDigit ∧ g.isDigit ∧ h.isDigit ∧ i.isDigit) ∧ rest3 = [] then
              some ([a, b, c], [d, e], [f, g, h, i])
            else none
          | _ => none
        else none
      | _ => none
    else none
  | _ => none

/-- `USSocialSecurityNumberField.db_value` (string branch; non-strings pass
through unchanged). -/
def uSSocialSecurityNumberField_db_value (value : String) :
    Except PyErr String :=
  let v := pyStrip value
  if v.length ≠ 11 then .error .valueError
  else
    match ssnParse v.toList with
    | none => .error .valueError
    | some (a, g, sr) =>
      let area := String.mk a
      let group := String.mk g
      let serial := String.mk sr
      if area = "000" then .error .valueError
      else if group = "00" then .error .valueError
      else if serial = "0000" then .error .valueError
      else if area = "666" then .error .valueError
      else if pyStartsWith area "9" then .error .valueError
      else if (area = "078" ∧ group = "05" ∧ serial = "1120") ∨
              (area = "219" ∧ group = "09" ∧ serial = "9999") then
        .error .valueError
      else .ok (area ++ "-" ++ group ++ "-" ++ serial)

/-- Result of `USSocialSecurityNumberField.python_value`: the namedtuple, or
the raw value passed through when falsy. -/
inductive SsnPy where
  | tuple (ssn : String) (area group serial : Int)
  | raw (s : String)
deriving DecidableEq, Repr

/-- `USSocialSecurityNumberField.python_value`: builds the namedtuple from the
slices `value[:3]`, `value[4:6]`, `value[7:]` via `int(...)`. -/
def uSSocialSecurityNumberField_python_value (value : String) :
    Except PyErr SsnPy :=
  if value ≠ "" then
    match pyIntDec (String.mk (value.toList.take 3)),
          pyIntDec (String.mk ((value.toList.drop 4).take 2)),
          pyIntDec (String.mk (value.toList.drop 7)) with
    | some a, some g, some s => .ok (.tuple value a g s)
    | _, _, _ => .error .valueError
  else .ok (.raw value)

/-- The SSN acceptance condition exactly as the claim words it: 11 characters,
the area/group/serial shape with optional separators, area not `000`/`666` and
not starting with `9`, group not `00`, serial not `0000`, and not one of the
two permanently invalid triples. -/
def ssnSpecAccept (t : String) : Bool :=
  (t.length == 11) &&
    match ssnParse t.toList with
    | some (a, g, sr) =>
      !(String.mk a == "000") && !(String.mk g == "00") &&
      !(String.mk sr == "0000") && !(String.mk a == "666") &&
      !(pyStartsWith (String.mk a) "9") &&
      !((String.mk a == "078" && String.mk g == "05" && String.mk sr == "1120") ||
        (String.mk a == "219" && String.mk g == "09" && String.mk sr == "9999"))
    | none => false

/-- The canonical re-hyphenated form `AAA-GG-SSSS` of a matching value. -/
def ssnCanonical (t : String) : String :=
  match ssnParse t.toList with
  | some (a, g, sr) => String.mk a ++ "-" ++ String.mk g ++ "-" ++ String.mk sr
  | none => ""

/-! ### `PastDateTimeField` and `PastDateField`

The `strptime` format strings come from the external peewee base classes, so
the format parsers are parameters; `date.today()` and the current instant are
parameters as well. -/

structure PyDateTime where
  year : Nat
  month : Nat
  day : Nat
  hour : Nat
  minute : Nat
  second : Nat
deriving DecidableEq, Repr

structure PyDate where
  year : Nat
  month : Nat
  day : Nat
deriving DecidableEq, Repr

/-- Ordering comparisons between `datetime` and `date` objects raise
`TypeError` in Python 3 (`datetime.__gt__` falls into `_cmperror` when the
other operand is a plain `date`). -/
def pyDatetimeGtDate (_dt : PyDateTime) (_d : PyDate) : Except PyErr Bool :=
  .error .typeError

/-- `date > date`: lexicographic on (year, month, day). -/
def pyDateGt (a b : PyDate) : Bool :=
  a.year > b.year ∨ (a.year = b.year ∧
    (a.month > b.month ∨ (a.month = b.month ∧ a.day > b.day)))

/-- The `for fmt in self.formats: try: ... except: pass else: break` loop: the
first format that parses wins; `none` models the case where no format matches
and the loop-local variable stays unbound. -/
def firstFormatMatch {α : Type} (formats : List (String → Option α))
    (value : String) : Option α :=
  match formats with
  | [] => none
  | f :: fs =>
    match f value with
    | some x => some x
    | none => firstFormatMatch fs value

/-- `PastDateTimeField.db_value`, string branch.  After the parse loop the code
evaluates `valid_datetime.today() > date.today()`: `.today()` is the
*classmethod* `datetime.today()` — the current instant (`now`), not the parsed
value — and comparing it against the `date` from `date.today()` raises
`TypeError`.  When no format matches, `valid_datetime` is unbound and the
comparison raises `NameError` instead. -/
def pastDateTimeField_db_value (formats : List (String → Option PyDateTime))
    (now : PyDateTime) (today : PyDate) (value : String) :
    Except PyErr String :=
  if value ≠ "" then
    match firstFormatMatch formats value with
    | none => .error .nameError
    | some _dt =>
      match pyDatetimeGtDate now today with
      | .error e => .error e
      | .ok true => .error .valueError
      | .ok false => .ok value
  else .ok value

/-- `PastDateField.db_value`, string branch.  Here the parsed value is reduced
with `.date()` (the format parameter models `strptime(...).date()`) and the
comparison `valid_date > date.today()` is a well-typed date comparison. -/
def pastDateField_db_value (formats : List (String → Option PyDate))
    (today : PyDate) (value : String) : Except PyErr String :=
  if value ≠ "" then
    match firstFormatMatch formats value with
    | none => .error .nameError
    | some d => if pyDateGt d today then .error .valueError else .ok value
  else .ok value

/-! ### `IBANISOCodeField` -/

/-- `value.strip().replace(' ', '').replace('-', '').upper()`. -/
def ibanNormalize (s : String) : String :=
  pyUpper (removeChar '-' (removeChar ' ' (pyStrip s)))

/-- One character of the rearranged IBAN mapped to decimal digits: digits map
to themselves, `A`-`Z` to the decimal digits of `ord(x) - 55`.  Any other
character falls into the `else` branch, whose f-string error message reads
`self` — a name that does not exist inside the static method — so constructing
the intended `ValueError` raises `NameError` instead. -/
def ibanCharDigits (c : Char) : Except PyErr (List Char) :=
  if '0' ≤ c ∧ c ≤ '9' then .ok [c]
  else if 'A' ≤ c ∧ c ≤ 'Z' then .ok (Nat.repr (c.toNat - 55)).toList
  else .error .nameError

/-- The digit-collection loop of `get_iban_checksum` (first failing character
aborts the loop). -/
def ibanCollectDigits : List Char → Except PyErr (List Char)
  | [] => .ok []
  | c :: r =>
    match ibanCharDigits c, ibanCollectDigits r with
    | .ok d, .ok ds => .ok (d ++ ds)
    | .error e, _ => .error e
    | .ok _, .error e => .error e

/-- `'%02d' % n`. -/
def pad2 (n : Nat) : String :=
  if n < 10 then "0" ++ Nat.repr n else Nat.repr n

/-- `IBANISOCodeField.get_iban_checksum`: re-normalize, rearrange as
`value[4:] + value[:2] + '00'`, map every character to decimal digits, return
`'%02d' % (98 - int(digits) % 97)`. -/
def get_iban_checksum (value : String) : Except PyErr String :=
  match ibanCollectDigits
      ((ibanNormalize value).toList.drop 4 ++
       (ibanNormalize value).toList.take 2 ++ ['0', '0']) with
  | .ok ds => .ok (pad2 (98 - natOfDigits ds % 97))
  | .error e => .error e

/-- `IBANISOCodeField.db_value` (string branch; non-strings pass through).
The `ISO3166` key set is a parameter (bundled data, membership test only). -/
def ibanISOCodeField_db_value (iso3166keys : List String) (value : String) :
    Except PyErr String :=
  if ibanNormalize value = "" then .error .valueError
  else if (ibanNormalize value).length > 34 then .error .valueError
  else if ¬ iso3166keys.contains
      (pyLower (String.mk ((ibanNormalize value).toList.take 2))) then
    .error .valueError
  else if ¬ pyIsdigit
      (pyLower (String.mk (((ibanNormalize value).toList.drop 2).take 2))) then
    .error .valueError
  else
    match get_iban_checksum (ibanNormalize value) with
    | .error e => .error e
    | .ok chk =>
      if chk ≠ String.mk (((ibanNormalize value).toList.drop 2).take 2) then
        .error .valueError
      else .ok (ibanNormalize value)

/-- `IBANISOCodeField.python_value`: re-normalize and build the namedtuple of
country code, checksum, BBAN, the 4-character-grouped pretty form, and the
normalized IBAN itself. -/
def ibanISOCodeField_python_value (value : String) :
    Option (String × String × String × String) :=
  if value ≠ "" then
    some (String.mk ((ibanNormalize value).toList.take 2),
          String.mk (((ibanNormalize value).toList.drop 2).take 2),
          String.mk ((ibanNormalize value).toList.drop 4),
          ibanNormalize value)
  else none

/-- The claim's letter-to-digit-groups map: digits stand for themselves,
letters `A`-`Z` for the decimal digits of `ord(letter) - 55`; any other
character leaves the number `N` undefined. -/
def specIbanDigits : List Char → Option (List Char)
  | [] => some []
  | c :: r =>
    if '0' ≤ c ∧ c ≤ '9' then (specIbanDigits r).map (fun ds => c :: ds)
    else if 'A' ≤ c ∧ c ≤ 'Z' then
      (specIbanDigits r).map (fun ds => (Nat.repr (c.toNat - 55)).toList ++ ds)
    else none

/-- The check digits as the claim words them: `98 - (N mod 97)` zero-padded to
two digits, with `N` the decimal number formed from `body + country + "00"`. -/
def specIbanCheckDigits (v : String) : Option String :=
  (specIbanDigits (v.toList.drop 4 ++ v.toList.take 2 ++ ['0', '0'])).map
    (fun ds => pad2 (98 - natOfDigits ds % 97))

/-- The claim's rejection condition on the normalized value `v`: empty, longer
than 34, unknown country code, non-digit characters 3-4, or computed check
digits differing from the embedded ones. -/
def ibanClaimReject (tbl : List String) (v : String) : Prop :=
  v = "" ∨ v.length > 34
  ∨ ¬ tbl.contains (pyLower (String.mk (v.toList.take 2))) = true
  ∨ ¬ pyIsdigit (pyLower (String.mk ((v.toList.drop 2).take 2))) = true
  ∨ specIbanCheckDigits v ≠ some (String.mk ((v.toList.drop 2).take 2))

instance (tbl : List String) (v : String) :
    Decidable (ibanClaimReject tbl v) := by
  unfold ibanClaimReject
  infer_instance

/-- Digits and uppercase letters: the characters for which the claim's check
digit computation is defined. -/
def alnumUpper (c : Char) : Bool :=
  ('0' ≤ c ∧ c ≤ '9') ∨ ('A' ≤ c ∧ c ≤ 'Z')

/-- The amended claim's restriction: the normalized value's body (characters
from position 5 on) and country-code positions hold only digits and uppercase
letters. -/
def ibanBodyAlnum (v : String) : Bool :=
  (v.toList.drop 4).all alnumUpper && (v.toList.take 2).all alnumUpper

/-! ### `_BaseRegexField` and `SemVerField`

The SemVer pattern
`\bv?(?:0|[1-9]\d*)\.(?:0|[1-9]\d*)\.(?:0|[1-9]\d*)(?:-[\da-z-]+(?:\.[\da-z-]+)*)?(?:\+[\da-z-]+(?:\.[\da-z-]+)*)?\b`
is applied with `re.match`, which anchors only the start: it succeeds whenever
some *prefix* of the value matches, here ending at a word boundary.  Because
everything between the two `\b` assertions is a plain regular expression,
`re.match` succeeds iff there *exists* a prefix in that language with word
boundaries at both ends; the deterministic parser below decides full-prefix
membership (maximal digit runs and the unique `'+'` split are forced in a
fully-anchored match), and the matcher quantifies over all prefix lengths,
which together implement the backtracking search completely. -/

/-- `_BaseRegexField.db_value` (string branch), parameterized by the compiled
pattern (as a match predicate) and the class attributes `min_length` and
`max_length`.  The `RuntimeWarning(...)` for an empty string is constructed
but never raised, so it has no effect. -/
def regexFieldDbValue (rx : String → Bool) (minLen maxLen : Nat)
    (value : String) : Except PyErr String :=
  if (pyStrip value).length > maxLen then .error .valueError
  else if (pyStrip value).length < minLen then .error .valueError
  else if ¬ rx (pyStrip value) then .error .valueError
  else .ok (pyStrip value)

/-- A decimal digit (the regex `\d`, ASCII fragment). -/
def digitCh (c : Char) : Bool := '0' ≤ c ∧ c ≤ '9'

/-- The regex `\w` (ASCII fragment): letters, digits, underscore. -/
def isWordChar (c : Char) : Bool :=
  ('0' ≤ c ∧ c ≤ '9') ∨ ('a' ≤ c ∧ c ≤ 'z') ∨ ('A' ≤ c ∧ c ≤ 'Z') ∨ c = '_'

/-- `(?:0|[1-9]\d*)` as the maximal digit run plus the no-leading-zero test:
returns the digits and the rest.  In a fully anchored match the run must be
maximal (a following regex element can never consume a digit). -/
def parseNumSplit (l : List Char) : Option (List Char × List Char) :=
  if l.takeWhile digitCh = [] then none
  else if 1 < (l.takeWhile digitCh).length ∧
      (l.takeWhile digitCh).take 1 = ['0'] then none
  else some (l.takeWhile digitCh, l.dropWhile digitCh)

/-- `v?(?:0|[1-9]\d*)\.(?:0|[1-9]\d*)\.(?:0|[1-9]\d*)`: returns the consumed
prefix and the rest. -/
def parseMMP (l : List Char) : Option (List Char × List Char) :=
  match parseNumSplit (if l.take 1 = ['v'] then l.drop 1 else l) with
  | none => none
  | some (ds1, r1) =>
    if r1.take 1 = ['.'] then
      match parseNumSplit (r1.drop 1) with
      | none => none
      | some (ds2, r2) =>
        if r2.take 1 = ['.'] then
          match parseNumSplit (r2.drop 1) with
          | none => none
          | some (ds3, r3) =>
            some ((if l.take 1 = ['v'] then ['v'] else []) ++ ds1 ++ ['.']
                  ++ ds2 ++ ['.'] ++ ds3, r3)
        else none
    else none

/-- `cls+(\.cls+)*`: nonempty dot-separated groups of nonempty runs over a
character class. -/
def dotGroups (cls : Char → Bool) (l : List Char) : Bool :=
  (l.splitOn '.').all (fun g => !g.isEmpty && g.all cls)

/-- The optional `(?:-pre)?(?:+build)?` tail of a fully anchored match: empty,
or `-` then dot-groups up to the first `+` and optionally `+` then dot-groups,
or directly `+` then dot-groups. -/
def tailOk (cls : Char → Bool) (l : List Char) : Bool :=
  if l = [] then true
  else if l.take 1 = ['-'] then
    dotGroups cls ((l.drop 1).takeWhile (fun c => c ≠ '+')) &&
      (if (l.drop 1).dropWhile (fun c => c ≠ '+') = [] then true
       else dotGroups cls (((l.drop 1).dropWhile (fun c => c ≠ '+')).drop 1))
  else if l.take 1 = ['+'] then dotGroups cls (l.drop 1)
  else false

/-- Full membership of a list in the core language (between the two `\b`),
over a given prerelease/build character class. -/
def semverCore (cls : Char → Bool) (l : List Char) : Bool :=
  match parseMMP l with
  | some (_, r) => tailOk cls r
  | none => false

/-- The field's prerelease/build class `[\da-z-]` — lowercase only, since the
pattern is compiled without `re.IGNORECASE`. -/
def semverRegexClass (c : Char) : Bool :=
  ('0' ≤ c ∧ c ≤ '9') ∨ ('a' ≤ c ∧ c ≤ 'z') ∨ c = '-'

/-- The canonical SemVer identifier class `[0-9A-Za-z-]`. -/
def semverCanonClass (c : Char) : Bool :=
  ('0' ≤ c ∧ c ≤ '9') ∨ ('a' ≤ c ∧ c ≤ 'z') ∨ ('A' ≤ c ∧ c ≤ 'Z') ∨ c = '-'

/-- `\b` at position `n` of the list: exactly one of the neighbouring
characters is a word character. -/
def wordBoundaryAt (l : List Char) (n : Nat) : Bool :=
  match (l.take n).getLast? with
  | none => false
  | some c =>
    match (l.drop n).head? with
    | none => isWordChar c
    | some d => decide (isWordChar c ≠ isWordChar d)

/-- `re.match` of the SemVer pattern: some nonempty prefix lies in the core
language with a word boundary at position 0 and at its end. -/
def semVerMatch (s : String) : Bool :=
  (List.range (s.toList.length + 1)).any (fun n =>
    (0 < n : Bool) && semverCore semverRegexClass (s.toList.take n)
      && (match s.toList.head? with
          | some c => isWordChar c
          | none => false)
      && wordBoundaryAt s.toList n)

/-- `SemVerField.db_value`: the inherited `_BaseRegexField.db_value` with the
SemVer pattern and the inherited `min_length = 1`, `max_length = 255`. -/
def semVerField_db_value : String → Except PyErr String :=
  regexFieldDbValue semVerMatch 1 255

/-- The canonical SemVer grammar as the claim words it: optional `v`,
`MAJOR.MINOR.PATCH` without leading zeros, optional `-prerelease` and
`+build` parts over the canonical identifier class, matching the whole
string. -/
def isCanonicalSemVer (s : String) : Bool :=
  semverCore semverCanonClass s.toList

/-! ### `ColorHexadecimalField` -/

/-- `value.lower().replace("-", "").strip()` as a character list. -/
def colorNormList (s : String) : List Char :=
  stripList ((s.toList.map Char.toLower).filter (fun x => x ≠ '-'))

/-- `ColorHexadecimalField.db_value` (string branch): after normalization the
value must be 7 or 4 characters, start with `#`, and `int(value[1:], 16)` must
parse; a 4-character shorthand is expanded by doubling each of the three tail
characters, a 7-character value is returned as-is. -/
def colorHexadecimalField_db_value (value : String) : Except PyErr String :=
  if (colorNormList value).length ≠ 7 ∧ (colorNormList value).length ≠ 4 then
    .error .valueError
  else if ¬ pyStartsWith (String.mk (colorNormList value)) "#" then
    .error .valueError
  else if (pyIntCore hexDigitVal 16 true ((colorNormList value).drop 1)).isNone
    then .error .valueError
  else if (colorNormList value).length = 4 then
    .ok (String.mk ('#' ::
      (((colorNormList value).drop 1).map (fun c => [c, c])).flatten))
  else .ok (String.mk (colorNormList value))

/-- The structured value of `ColorHexadecimalField.python_value`: the hex
string, exact integer RGB, the three colorsys projections (parameters: float
arithmetic stays outside the embedding), and the two CSS strings. -/
structure ColorTuple (α : Type) where
  hex : String
  red : Nat
  green : Nat
  blue : Nat
  hls : α
  hsv : α
  yiq : α
  css : String
  css_prcnt : String

/-- `hex2rgb`: `struct.unpack('BBB', codecs.decode(bytes(color_hex), "hex"))`,
i.e. exactly six hexadecimal characters decoding to three bytes (a decode or
unpack failure is modelled as the error case). -/
def hex2rgb (l : List Char) : Option (Nat × Nat × Nat) :=
  match l with
  | [a, b, c, d, e, f] =>
    match hexDigitVal a, hexDigitVal b, hexDigitVal c,
          hexDigitVal d, hexDigitVal e, hexDigitVal f with
    | some va, some vb, some vc, some vd, some ve, some vf =>
      some (va * 16 + vb, vc * 16 + vd, ve * 16 + vf)
    | _, _, _, _, _, _ => none
  | _ => none

/-- `int(val * 100 / 255)` for `val` in 0..255: the float quotient is never
within rounding error of an integer unless exact, so truncation agrees with
natural division. -/
def cssPercent (v : Nat) : Nat := v * 100 / 255

/-- `ColorHexadecimalField.python_value`: falsy values pass through (`none`),
otherwise `value.replace("#", "")` is decoded to RGB and the namedtuple is
built; `rgb_to_hls`/`rgb_to_hsv`/`rgb_to_yiq` with their 2-digit rounding are
parameters. -/
def colorHexadecimalField_python_value {α : Type}
    (rgbToHls rgbToHsv rgbToYiq : Nat → Nat → Nat → α) (value : String) :
    Except PyErr (Option (ColorTuple α)) :=
  if value ≠ "" then
    match hex2rgb (value.toList.filter (fun x => x ≠ '#')) with
    | none => .error .valueError
    | some (r, g, b) =>
      .ok (some {
        hex := value
        red := r, green := g, blue := b
        hls := rgbToHls r g b, hsv := rgbToHsv r g b, yiq := rgbToYiq r g b
        css := "rgb(" ++ Nat.repr r ++ "," ++ Nat.repr g ++ ","
          ++ Nat.repr b ++ ")"
        css_prcnt := "rgb(" ++ Nat.repr (cssPercent r) ++ "%,"
          ++ Nat.repr (cssPercent g) ++ "%,"
          ++ Nat.repr (cssPercent b) ++ "%)" })
  else .ok none

/-- A lowercase hexadecimal digit. -/
def isLowerHex (c : Char) : Bool :=
  ('0' ≤ c ∧ c ≤ '9') ∨ ('a' ≤ c ∧ c ≤ 'f')

/-! ### `CountryISOCodeField`

Modelled from the spec: the `ISO3166` forward table and the `INT2COUNTRY`
reverse table are bundled JSON data files (not source under `src/`), so they
appear as parameters: an association list from 2-character codes to records of
the descriptive attributes the spec names, and an association list from the
decimal string of a numeric id back to a code. -/

/-- One `ISO3166` reference-table entry (the attributes read by
`CountryISOCodeField`). -/
structure CountryRecord where
  iso3166_a3 : String
  iso3166_numeric : Nat
  capital : String
  continent : String
  currency_code : String
  currency_name : String
  geoname_id : Nat
  is_developed : Bool
  is_independent : Bool
  languages : List String
  name : String
  name_human : String
  phone_code : String
  timezones : List String
  tld : String
deriving DecidableEq, Repr

/-- `str.title()` (ASCII fragment): a letter following a letter is lowercased,
a letter following a non-letter is uppercased. -/
def pyTitleAux : List Char → Bool → List Char
  | [], _ => []
  | c :: r, prevCased =>
    if c.isAlpha then
      (if prevCased then c.toLower else c.toUpper) :: pyTitleAux r true
    else c :: pyTitleAux r false

/-- `str.title()`. -/
def pyTitle (s : String) : String := String.mk (pyTitleAux s.toList false)

/-- Result of `CountryISOCodeField.db_value`: the interned integer, or the raw
falsy value passed through. -/
inductive CountryDb where
  | int (n : Nat)
  | raw (s : String)
deriving DecidableEq, Repr

/-- `CountryISOCodeField.db_value`: lowercase and strip, require length 2,
require table membership, return the entry's `iso3166_numeric` as `int`. -/
def countryISOCodeField_db_value (iso3166 : List (String × CountryRecord))
    (value : String) : Except PyErr CountryDb :=
  if value ≠ "" then
    if (pyStrip (pyLower value)).length ≠ 2 then .error .valueError
    else
      match iso3166.lookup (pyStrip (pyLower value)) with
      | none => .error .valueError
      | some r => .ok (.int r.iso3166_numeric)
  else .ok (.raw value)

/-- The structured value built by `CountryISOCodeField.python_value`. -/
structure CountryTuple where
  iso3166_a3 : String
  iso3166_numeric : Nat
  capital : String
  continent : String
  currency_code : String
  currency_name : String
  geoname_id : Nat
  is_developed : Bool
  is_independent : Bool
  languages : List String
  name : String
  name_human : String
  phone_code : String
  timezones : List String
  tld : String
deriving DecidableEq, Repr

/-- Result of `CountryISOCodeField.python_value`: the namedtuple, or the raw
falsy integer passed through. -/
inductive CountryPy where
  | tuple (t : CountryTuple)
  | raw (n : Nat)
deriving DecidableEq, Repr

/-- `CountryISOCodeField.python_value`: `INT2COUNTRY[str(value)]` (a missing
key raises `KeyError`), then `ISO3166[value]`, then the formatting transforms
(`.upper()` on alpha codes, `.title()` on names) build the namedtuple.  The
guard `if value and isinstance(value, int)` lets a falsy `0` pass through. -/
def countryISOCodeField_python_value (iso3166 : List (String × CountryRecord))
    (int2country : List (String × String)) (value : Nat) :
    Except PyErr CountryPy :=
  if value ≠ 0 then
    match int2country.lookup (Nat.repr value) with
    | none => .error .keyError
    | some code =>
      match iso3166.lookup code with
      | none => .error .keyError
      | some r =>
        .ok (.tuple {
          iso3166_a3 := pyUpper r.iso3166_a3
          iso3166_numeric := r.iso3166_numeric
          capital := pyTitle r.capital
          continent := pyTitle r.continent
          currency_code := pyUpper r.currency_code
          currency_name := pyTitle r.currency_name
          geoname_id := r.geoname_id
          is_developed := r.is_developed
          is_independent := r.is_independent
          languages := r.languages
          name := pyTitle r.name
          name_human := pyTitle r.name_human
          phone_code := r.phone_code
          timezones := r.timezones
          tld := r.tld })
  else .ok (.raw value)

/-! ### `db_value(None)` across the exported field classes

Peewee calls `db_value` with `None` when a column value is absent.  Every
field class defined in this repository guards its conversion logic with a
truthiness test (`if value and ...`), an `isinstance` test, or an explicit
`is not None` test, so `None` falls through every branch and is returned
unchanged — except `JSONField.db_value`, whose first test
`0 == len(value)` calls `len(None)` and raises `TypeError`.  The wrappers
below extend the string-branch embeddings above to `Option`-valued inputs
(`none` models Python `None`) and embed the remaining exported classes;
external primitives (`ipaddress`, `hashlib`, `bcrypt`, `pickle`, `re.sub`,
the JSON and XML parsers, Python `round`/`Decimal.quantize`, `set`
iteration order, and the bundled ISO tables) stay parameters.
`DateTimeTZRangeField` defines no `db_value` of its own (it only sets
`db_field`), so its behaviour is peewee's and lies outside this embedding;
`FIELD_TYPES` is a plain dict, not a field class, and `EnumField` is not
exported. -/

/-- Lift a string-branch `db_value` embedding to `Option`-valued input: for
any field whose whole body sits under `isinstance(value, str)` (with or
without an additional truthiness test), a `None` input skips the body and is
returned unchanged. -/
def optLift {α β : Type} (f : α → Except PyErr β) :
    Option α → Except PyErr (Option β)
  | none => .ok none
  | some v => (f v).map some

/-- `_BaseRegexField.db_value` (all of `regex_fields.py`, `SemVerField` and
the zip-code/national-id fields included, each fixing `regex`, `min_length`
and `max_length`) on `Option` input. -/
def regexFieldDbValueOpt (rx : String → Bool) (minLen maxLen : Nat) :
    Option String → Except PyErr (Option String) :=
  optLift (regexFieldDbValue rx minLen maxLen)

def positiveSmallIntegerField_db_value_opt :
    Option Int → Except PyErr (Option Int) :=
  optLift positiveSmallIntegerField_db_value

def positiveIntegerField_db_value_opt :
    Option Int → Except PyErr (Option Int) :=
  optLift positiveIntegerField_db_value

def positiveBigIntegerField_db_value_opt :
    Option Int → Except PyErr (Option Int) :=
  optLift positiveBigIntegerField_db_value

/-- `PositiveFloatField.db_value`: floats as rationals, Python `round`
(banker's rounding to `n` digits) as a parameter.  `value and value < 0`
uses float truthiness, so `0.0` skips both the check and the rounding. -/
def positiveFloatField_db_value (roundBy : Option Nat) (pyRound : ℚ → Nat → ℚ)
    (value : Option ℚ) : Except PyErr (Option ℚ) :=
  match value with
  | none => .ok none
  | some v =>
    if v ≠ 0 ∧ v < 0 then .error .valueError
    else if v ≠ 0 ∧ roundBy.isSome then .ok (some (pyRound v (roundBy.getD 0)))
    else .ok (some v)

/-- `PositiveDecimalField.db_value`: `Decimal` as rationals,
`Decimal(value).quantize(Decimal(10) ** -round_by).normalize()` as a
parameter. -/
def positiveDecimalField_db_value (roundBy : Option Nat)
    (quantizeNorm : ℚ → Nat → ℚ) (value : Option ℚ) :
    Except PyErr (Option ℚ) :=
  match value with
  | none => .ok none
  | some v =>
    if v ≠ 0 ∧ v < 0 then .error .valueError
    else if v ≠ 0 ∧ roundBy.isSome then
      .ok (some (quantizeNorm v (roundBy.getD 0)))
    else .ok (some v)

/-- The character class `[0-9A-f]` of the hexadecimal fields' regex (digits
plus ASCII 65..102: uppercase letters, punctuation, lowercase a-f). -/
def hexCls (c : Char) : Bool := ('0' ≤ c ∧ c ≤ '9') ∨ ('A' ≤ c ∧ c ≤ 'f')

/-- Membership in `(([0-9A-f])|(0x[0-9A-f]))+`: a backtracking tokenizer —
each token is one class character or `0x` plus one class character. -/
def hexRun : List Char → Bool
  | [] => true
  | [c] => hexCls c
  | [c, d] => hexCls c && hexCls d
  | c :: d :: e :: rest =>
    (hexCls c && hexRun (d :: e :: rest))
    || ((c == '0') && (d == 'x') && hexCls e && hexRun rest)

/-- `re.match(r"^(([0-9A-f])|(0x[0-9A-f]))+$", s)` as full-string
membership. -/
def hexRegexMatch (s : String) : Bool := !s.toList.isEmpty && hexRun s.toList

/-- `HexadecimalField.db_value` (the exported `BlobField` version defined in
`__init__.py`, which shadows the regex-field one): validate against the
regex, then return `binascii.unhexlify(value)` (a parameter, which itself
raises a `ValueError` subclass on odd length or non-standard hex digits). -/
def hexadecimalField_db_value (unhexlify : String → Except PyErr (List Nat))
    (value : Option String) : Except PyErr (Option (String ⊕ List Nat)) :=
  match value with
  | none => .ok none
  | some s =>
    if s ≠ "" then
      if ¬ hexRegexMatch s then .error .valueError
      else
        match unhexlify s with
        | .error e => .error e
        | .ok b => .ok (some (.inr b))
    else .ok (some (.inl s))

/-- `SmallHexadecimalField.db_value`: validate against the regex, convert
with `int(value.lower().strip(), 16)` and range-check against the
SmallIntegerField bounds. -/
def smallHexadecimalField_db_value (value : Option String) :
    Except PyErr (Option (String ⊕ Int)) :=
  match value with
  | none => .ok none
  | some s =>
    if s ≠ "" then
      if ¬ hexRegexMatch s then .error .valueError
      else
        match pyIntHex (pyStrip (pyLower s)) with
        | none => .error .valueError
        | some n =>
          if n < 0 ∨ n > 32767 then .error .valueError
          else .ok (some (.inr n))
    else .ok (some (.inl s))

/-- An `IPAddressField` input: the code accepts `str` and `int` (guarded by
truthiness, so `""` and `0` pass through unchanged). -/
inductive IpIn where
  | str (s : String)
  | int (n : Int)
deriving DecidableEq, Repr

/-- Python truthiness of an `IPAddressField` input. -/
def ipTruthy : IpIn → Bool
  | .str s => s ≠ ""
  | .int n => n ≠ 0

/-- `IPAddressField.db_value`: `ip_address` (a parameter) validates, and the
stored value is `int(ip_address(value))`. -/
def iPAddressField_db_value (ipAddr : IpIn → Except PyErr Int)
    (value : Option IpIn) : Except PyErr (Option IpIn) :=
  match value with
  | none => .ok none
  | some v =>
    if ipTruthy v then
      match ipAddr v with
      | .error _ => .error .valueError
      | .ok n => .ok (some (.int n))
    else .ok (some v)

/-- `IPNetworkField.db_value`: `ip_network` (a parameter) validates and the
original string is stored. -/
def iPNetworkField_db_value (ipNet : String → Except PyErr Unit)
    (value : Option String) : Except PyErr (Option String) :=
  match value with
  | none => .ok none
  | some s =>
    if s ≠ "" then
      match ipNet s with
      | .error _ => .error .valueError
      | .ok _ => .ok (some s)
    else .ok (some s)

/-- `SWIFTISOCodeField.db_value`: same normalization as the IBAN field, then
the length-12 rejection, the emptiness and 8-or-11-length checks, `A`-`Z`
bank code, and ISO-3166 country code at positions 4-5. -/
def sWIFTISOCodeField_db_value (iso3166keys : List String)
    (value : Option String) : Except PyErr (Option String) :=
  match value with
  | none => .ok none
  | some s =>
    if (ibanNormalize s).length = 12 then .error .valueError
    else if ibanNormalize s = "" then .error .valueError
    else if ¬ ((ibanNormalize s).length = 8 ∨ (ibanNormalize s).length = 11)
      then .error .valueError
    else if ¬ ((ibanNormalize s).toList.take 4).all
        (fun c => 'A' ≤ c ∧ c ≤ 'Z') then .error .valueError
    else if ¬ iso3166keys.contains
        (pyLower (String.mk (((ibanNormalize s).toList.drop 4).take 2))) then
      .error .valueError
    else .ok (some (ibanNormalize s))

def ibanISOCodeField_db_value_opt (iso3166keys : List String) :
    Option String → Except PyErr (Option String) :=
  optLift (ibanISOCodeField_db_value iso3166keys)

def iANCodeField_db_value_opt : Option String → Except PyErr (Option String) :=
  optLift iANCodeField_db_value

def pastDateTimeField_db_value_opt
    (formats : List (String → Option PyDateTime)) (now : PyDateTime)
    (today : PyDate) : Option String → Except PyErr (Option String) :=
  optLift (pastDateTimeField_db_value formats now today)

def pastDateField_db_value_opt (formats : List (String → Option PyDate))
    (today : PyDate) : Option String → Except PyErr (Option String) :=
  optLift (pastDateField_db_value formats today)

/-- `LanguageISOCodeField.db_value`: lowercase and strip, require length 2
and membership in the bundled ISO-639-1 table (keys as a parameter). -/
def languageISOCodeField_db_value (iso639keys : List String)
    (value : Option String) : Except PyErr (Option String) :=
  match value with
  | none => .ok none
  | some s =>
    if s ≠ "" then
      if (pyStrip (pyLower s)).length ≠ 2 then .error .valueError
      else if ¬ iso639keys.contains (pyStrip (pyLower s)) then
        .error .valueError
      else .ok (some (pyStrip (pyLower s)))
    else .ok (some s)

def countryISOCodeField_db_value_opt
    (iso3166 : List (String × CountryRecord)) :
    Option String → Except PyErr (Option CountryDb) :=
  optLift (countryISOCodeField_db_value iso3166)

/-- What `CurrencyISOCodeField.db_value` stores: the looked-up
`iso4217_numeric` integer, or the unconverted falsy input. -/
inductive CurrencyDb where
  | int (n : Nat)
  | raw (s : String)
deriving DecidableEq, Repr

/-- `CurrencyISOCodeField.db_value`: lowercase and strip, require length 3
and membership in the bundled ISO-4217 table (code-to-numeric pairs as a
parameter), store the numeric code. -/
def currencyISOCodeField_db_value (iso4217 : List (String × Nat))
    (value : Option String) : Except PyErr (Option CurrencyDb) :=
  match value with
  | none => .ok none
  | some s =>
    if s ≠ "" then
      if (pyStrip (pyLower s)).length ≠ 3 then .error .valueError
      else
        match iso4217.lookup (pyStrip (pyLower s)) with
        | none => .error .valueError
        | some n => .ok (some (.int n))
    else .ok (some (.raw s))

/-- `CharFieldCustom.db_value`: optional lowercasing, minimum length,
black/white lists, `re.sub` of non-ASCII runs by `force_ascii`, and
slugification — every step guarded by truthiness of the current value.  The
two `re.sub` calls are parameters.  `force_ascii` uses an `is not None`
test, the others truthiness (`None` or an empty tuple become `none`). -/
def charFieldCustom_db_value (useLower : Bool) (minLen : Option Nat)
    (blacklist whitelist : Option (List String)) (forceAscii : Option String)
    (forceSlugify : Bool) (subNonAscii : String → String → String)
    (subSlug : String → String) (value : Option String) :
    Except PyErr (Option String) :=
  match value with
  | none => .ok none
  | some s =>
    let v1 := if s ≠ "" ∧ useLower then pyLower s else s
    if v1 ≠ "" ∧ minLen.isSome ∧ v1.length < minLen.getD 0 then
      .error .valueError
    else if v1 ≠ "" ∧ blacklist.isSome
        ∧ (blacklist.getD []).contains (pyLower v1) then .error .valueError
    else if v1 ≠ "" ∧ whitelist.isSome
        ∧ ¬ (whitelist.getD []).contains (pyLower v1) then .error .valueError
    else
      let v2 := if v1 ≠ "" ∧ forceAscii.isSome then
        subNonAscii (forceAscii.getD "") v1 else v1
      let v3 := if v2 ≠ "" ∧ forceSlugify then subSlug v2 else v2
      .ok (some v3)

/-- `CSVField.db_value`: split on the separator, optionally dedupe through
`set` (iteration order as a parameter), optionally sort, re-join. -/
def cSVField_db_value (sep : String) (useSet : Bool) (useSorted : Bool)
    (pySetOrder : List String → List String) (value : Option String) :
    Except PyErr (Option String) :=
  match value with
  | none => .ok none
  | some s =>
    if s ≠ "" then
      let parts := s.splitOn sep
      let parts2 := if useSet then pySetOrder parts else parts
      let parts3 := if useSorted then
        parts2.mergeSort (fun a b => a ≤ b) else parts2
      .ok (some (String.intercalate sep parts3))
    else .ok (some s)

def colorHexadecimalField_db_value_opt :
    Option String → Except PyErr (Option String) :=
  optLift colorHexadecimalField_db_value

/-- `value.rsplit(c, 1)` for a character occurring in the list: the part
before the last occurrence and the part after it. -/
def rsplitAtLast (c : Char) (l : List Char) : List Char × List Char :=
  (((l.reverse.dropWhile (fun x => x ≠ c)).drop 1).reverse,
   (l.reverse.takeWhile (fun x => x ≠ c)).reverse)

/-- `EmailField.db_value`: strip and lowercase, emptiness/length/`@` checks,
`rsplit('@', 1)`, domain length, then the user and domain regexes and the
literal-IP escape hatch (all three matchers are parameters). -/
def emailField_db_value (userRx domainRx isIpAddr : String → Bool)
    (value : Option String) : Except PyErr (Option String) :=
  match value with
  | none => .ok none
  | some s =>
    if pyLower (pyStrip s) = "" then .error .valueError
    else if (pyLower (pyStrip s)).length > 254 then .error .valueError
    else if (pyLower (pyStrip s)).length < 4 then .error .valueError
    else if ¬ (pyLower (pyStrip s)).toList.contains '@' then
      .error .valueError
    else
      let domainPart :=
        String.mk (rsplitAtLast '@' (pyLower (pyStrip s)).toList).2
      let userPart :=
        String.mk (rsplitAtLast '@' (pyLower (pyStrip s)).toList).1
      if domainPart.length > 63 then .error .valueError
      else if ¬ userRx userPart then .error .valueError
      else if ¬ domainRx domainPart ∧ domainPart ≠ "localhost"
          ∧ ¬ isIpAddr domainPart then .error .valueError
      else .ok (some (pyLower (pyStrip s)))

def uSSocialSecurityNumberField_db_value_opt :
    Option String → Except PyErr (Option String) :=
  optLift uSSocialSecurityNumberField_db_value

/-- A `MoneyField` input: the accepted types (payloads irrelevant to
`db_value`, which returns the value unchanged) plus `obj` for any other
type, which is rejected with `TypeError`; `None` is among the accepted
types. -/
inductive MoneyIn where
  | int (n : Int)
  | float
  | str (s : String)
  | dec
  | obj
deriving DecidableEq, Repr

/-- `MoneyField.db_value`: a pure isinstance check — `int`, `float`, `str`,
`Decimal` and `None` pass through unchanged, anything else raises
`TypeError`. -/
def moneyField_db_value : Option MoneyIn → Except PyErr (Option MoneyIn)
  | some .obj => .error .typeError
  | v => .ok v

/-- `XMLField.db_value`: strip, parse with `xml.etree.ElementTree.fromstring`
(a parameter), return the stripped string. -/
def xMLField_db_value (parseXML : String → Except PyErr Unit)
    (value : Option String) : Except PyErr (Option String) :=
  match value with
  | none => .ok none
  | some s =>
    if s ≠ "" then
      match parseXML (pyStrip s) with
      | .error _ => .error .valueError
      | .ok _ => .ok (some (pyStrip s))
    else .ok (some s)

/-- `SimplePasswordField.db_value`: strip, optional minimum length, then the
hex PBKDF2 digest (a parameter bundling salt, algorithm, iterations and
dklen).  A falsy input skips the whole block and the method falls off the
end, implicitly returning `None` — so `""` maps to `none` here. -/
def simplePasswordField_db_value (minLength : Option Nat)
    (pbkdf2hex : String → String) (value : Option String) :
    Except PyErr (Option String) :=
  match value with
  | none => .ok none
  | some s =>
    if s ≠ "" then
      if pyStrip s ≠ "" ∧ minLength.isSome
          ∧ (pyStrip s).length < minLength.getD 0 then .error .valueError
      else .ok (some (pbkdf2hex (pyStrip s)))
    else .ok none

/-- `PickledField.db_value`: `pickle.dumps` (a parameter) under an explicit
`is not None` guard; for `None` the method implicitly returns `None`. -/
def pickledField_db_value {α : Type} (dumps : α → List Nat)
    (value : Option α) : Except PyErr (Option (List Nat)) :=
  match value with
  | none => .ok none
  | some v => .ok (some (dumps v))

/-- A `PasswordField` input: an already-computed `PasswordHash` (stored
as-is), a `str` (encoded then hashed) or `bytes` (hashed). -/
inductive PwIn where
  | hash (b : List Nat)
  | str (s : String)
  | bytes (b : List Nat)
deriving DecidableEq, Repr

/-- `PasswordField.db_value`: `bytes(value)` for a `PasswordHash`, otherwise
encode strings to bytes and return `value if value is None else
hashpw(value, salt)` (the salted bcrypt hash is a parameter). -/
def passwordField_db_value (encode : String → List Nat)
    (hashpw : List Nat → List Nat) (value : Option PwIn) :
    Except PyErr (Option (List Nat)) :=
  match value with
  | none => .ok none
  | some (.hash b) => .ok (some b)
  | some (.str s) => .ok (some (hashpw (encode s)))
  | some (.bytes b) => .ok (some (hashpw b))

/-- `re.match(r"^\d{2}-?\d{8}-?\d$", value)`: two digits, optional hyphen,
eight digits, optional hyphen, one digit (each `-?` is forced: a hyphen can
never be consumed by `\d`). -/
def cuitMatch (l : List Char) : Bool :=
  (l.take 2).length == 2 && (l.take 2).all digitCh &&
    (let r1 := l.drop 2
     let r2 := if r1.take 1 = ['-'] then r1.drop 1 else r1
     (r2.take 8).length == 8 && (r2.take 8).all digitCh &&
       (let r3 := r2.drop 8
        let r4 := if r3.take 1 = ['-'] then r3.drop 1 else r3
        match r4 with
        | [d] => digitCh d
        | _ => false))

/-- `ARCUITField.db_value`: regex plus minimum length, then the hyphens are
removed for storage. -/
def aRCUITField_db_value (value : Option String) :
    Except PyErr (Option String) :=
  match value with
  | none => .ok none
  | some s =>
    if s ≠ "" then
      if ¬ cuitMatch s.toList ∨ s.length < 10 then .error .valueError
      else .ok (some (removeChar '-' s))
    else .ok (some s)

/-- A `JSONField` input: a string, a list/dict (its `len` and its
`json.dumps` serialization), or any other sized object. -/
inductive JsonIn where
  | str (s : String)
  | coll (size : Nat) (dumped : String)
  | sized (size : Nat)
deriving DecidableEq, Repr

/-- `len(value)` for a `JSONField` input. -/
def jsonLen : JsonIn → Nat
  | .str s => s.length
  | .coll n _ => n
  | .sized n => n

/-- `JSONField.db_value`: `0 == len(value)` raises `TypeError` for `None`;
empty values become `"\x7b\x7d"`; lists and dicts are serialized; any other
value hits `is_json`, where a *valid* JSON string trips the `resoinse`/
`response` typo and raises `NameError`, an invalid string lets the parser's
`ValueError` propagate, and a non-string makes `json.loads` raise
`TypeError`, which `is_json` turns into `False`, hence `ValueError`. -/
def jSONField_db_value (loadsOk : String → Bool) :
    Option JsonIn → Except PyErr String
  | none => .error .typeError
  | some v =>
    if (match v with | .str s => s == "" | _ => false) || jsonLen v == 0 then
      .ok "\x7b\x7d"
    else
      match v with
      | .coll _ dumped => .ok dumped
      | .str s => if loadsOk s then .error .nameError else .error .valueError
      | .sized _ => .error .valueError

end PeeweeExtra

namespace PeeweeExtra

/-! ## Theorems -/

/-- Helper: `positiveDbValue lo hi` with `lo = 0` accepts exactly `[0, hi]`. -/
theorem positiveDbValue_eq (hi : Int) (n : Int) (hhi : 0 < hi) :
    positiveDbValue 0 hi n =
      if 0 ≤ n ∧ n ≤ hi then .ok n else .error .valueError := by
  unfold positiveDbValue
  by_cases h0 : n = 0
  · subst h0; simp [hhi.le]
  · simp only [h0, if_true, ne_eq, not_false_iff]
    by_cases hneg : n < 0 ∨ n > hi
    · simp only [hneg, if_true]
      have : ¬ (0 ≤ n ∧ n ≤ hi) := by omega
      simp [this]
    · simp only [hneg, if_false]
      have : 0 ≤ n ∧ n ≤ hi := by omega
      simp [this]

/-- C7: for each of the three positive-integer fields, `db_value n` succeeds
and returns `n` exactly when `0 ≤ n ≤ max` (so the inherited integer decode
gives back `n`), and every negative `n` is rejected with a `ValueError`. -/
theorem positive_fields_spec (n : Int) :
    (positiveSmallIntegerField_db_value n =
      if 0 ≤ n ∧ n ≤ 32767 then .ok n else .error .valueError)
  ∧ (positiveIntegerField_db_value n =
      if 0 ≤ n ∧ n ≤ 2147483647 then .ok n else .error .valueError)
  ∧ (positiveBigIntegerField_db_value n =
      if 0 ≤ n ∧ n ≤ 9223372036854775807 then .ok n else .error .valueError)
  ∧ positiveField_python_value n = n := by
  refine ⟨positiveDbValue_eq _ n (by norm_num),
          positiveDbValue_eq _ n (by norm_num),
          positiveDbValue_eq _ n (by norm_num), rfl⟩

/-- C2 (code bug): `"12345670"` is a standard-valid EAN-8 — its weighted sum is
60, so the spec check digit `(10 - 60 % 10) % 10 = 0` equals its final digit —
yet `db_value` rejects it, because `get_ian_checksum` omits the outer `% 10`
and produces the two-character string `"10"`, which never equals a digit. -/
theorem ian_zero_checksum_bug :
    iANCodeField_db_value "12345670" = .error .valueError
  ∧ ianSumAux "1234567".toList.reverse 0 = some 60
  ∧ spec_ian_check_digit 60 = 0
  ∧ lastCharStr "12345670" = "0"
  ∧ get_ian_checksum "12345670" = .str "10" := by
  refine ⟨by decide, by decide, by decide, by decide, by decide⟩

/-- Helper: the weighted sum fails (models the `ValueError` from `int`) as soon
as some processed character is not a digit. -/
theorem ianSumAux_none_of_nondigit (l : List Char) (i : Nat)
    (h : ∃ c ∈ l, ¬ c.isDigit) : ianSumAux l i = none := by
  induction l generalizing i with
  | nil => rcases h with ⟨c, hc, _⟩; cases hc
  | cons c cs ih =>
    rcases h with ⟨d, hd, hnd⟩
    rcases List.mem_cons.mp hd with h1 | h2
    · subst h1
      unfold ianSumAux pyIntChar
      simp [hnd]
    · unfold ianSumAux
      rw [ih (i + 1) ⟨d, h2, hnd⟩]
      cases pyIntChar c <;> rfl

/-- C3: when some character before the last is not a digit (so the `int`
conversion inside the generator raises `ValueError`), `get_ian_checksum`
catches the exception and *returns the exception object as its result value*
(the `errObject` constructor) instead of raising or reporting an error. -/
theorem ian_checksum_returns_error_object (value : String)
    (h : ∃ c ∈ value.toList.dropLast, ¬ c.isDigit) :
    get_ian_checksum value = .errObject := by
  unfold get_ian_checksum
  rw [ianSumAux_none_of_nondigit _ 0]
  rcases h with ⟨c, hc, hnd⟩
  exact ⟨c, List.mem_reverse.mpr hc, hnd⟩

/-- Witness for C3 at the concrete input `"12a45678"`. -/
theorem ian_checksum_returns_error_object_witness :
    get_ian_checksum "12a45678" = .errObject :=
  ian_checksum_returns_error_object "12a45678" ⟨'a', by decide, by decide⟩

/-- C4: `db_value` accepts a string exactly under the claim's condition (area,
group, serial structure with the listed exclusions) and always returns the
re-hyphenated canonical form; the spec's five rejection examples reject, and
`python_value` of the canonical form of `205-21-9000` yields
`area=205, group=21, serial=9000`. -/
theorem ssn_db_value_spec :
    (∀ s : String,
      uSSocialSecurityNumberField_db_value s =
        if ssnSpecAccept (pyStrip s) then .ok (ssnCanonical (pyStrip s))
        else .error .valueError)
  ∧ uSSocialSecurityNumberField_python_value "205-21-9000" =
      .ok (.tuple "205-21-9000" 205 21 9000)
  ∧ uSSocialSecurityNumberField_db_value "205-21-9000" = .ok "205-21-9000"
  ∧ uSSocialSecurityNumberField_db_value "000-12-3456" = .error .valueError
  ∧ uSSocialSecurityNumberField_db_value "123-00-4567" = .error .valueError
  ∧ uSSocialSecurityNumberField_db_value "123-45-0000" = .error .valueError
  ∧ uSSocialSecurityNumberField_db_value "666-12-3456" = .error .valueError
  ∧ uSSocialSecurityNumberField_db_value "900-12-3456" = .error .valueError := by
  refine ⟨?_, by decide, by decide, by decide, by decide, by decide,
          by decide, by decide⟩
  intro s
  unfold uSSocialSecurityNumberField_db_value ssnSpecAccept ssnCanonical
  by_cases hlen : (pyStrip s).length = 11
  · rw [if_neg (by simp [hlen])]
    have hb : ((pyStrip s).length == 11) = true := by simp [hlen]
    rw [hb]
    cases hp : ssnParse (pyStrip s).toList with
    | none => simp
    | some t =>
      obtain ⟨a, g, sr⟩ := t
      simp only [Bool.true_and]
      by_cases h1 : String.mk a = "000"
      · simp [h1]
      · by_cases h2 : String.mk g = "00"
        · simp [h1, h2]
        · by_cases h3 : String.mk sr = "0000"
          · simp [h1, h2, h3]
          · by_cases h4 : String.mk a = "666"
            · simp [h1, h2, h3, h4]
            · by_cases h5 : pyStartsWith (String.mk a) "9" = true
              · simp [h1, h2, h3, h4, h5]
              · by_cases h6 : (String.mk a = "078" ∧ String.mk g = "05" ∧
                    String.mk sr = "1120") ∨ (String.mk a = "219" ∧
                    String.mk g = "09" ∧ String.mk sr = "9999")
                · rw [if_neg h1, if_neg h2, if_neg h3, if_neg h4,
                      if_neg (by simpa using h5), if_pos h6]
                  rcases h6 with h6 | h6 <;>
                    simp [h6.1, h6.2.1, h6.2.2, h1, h2, h3, h4, h5]
                · rw [if_neg h1, if_neg h2, if_neg h3, if_neg h4,
                      if_neg (by simpa using h5), if_neg h6]
                  simp only [h1, h2, h3, h4, h5, h6]
                  rw [if_pos (by simp [h1, h2, h3, h4, h5]; tauto)]
  · rw [if_pos (by simp [hlen])]
    have hb : ((pyStrip s).length == 11) = false := by simp [hlen]
    rw [hb]
    simp

/-- C5 (code bug): whenever a nonempty string is parsed by one of the accepted
formats, `PastDateTimeField.db_value` raises `TypeError` — the code compares
the current `datetime.today()` against `date.today()`, which Python 3 rejects —
instead of accepting past/present values and rejecting only future ones.
`PastDateField.db_value` on parsed strings does behave as the claim states
(accept past or present, `ValueError` exactly for strictly-future dates). -/
theorem pastDateTime_string_typeError :
    (∀ (formats : List (String → Option PyDateTime)) (now : PyDateTime)
       (today : PyDate) (value : String) (dt : PyDateTime),
       value ≠ "" →
       firstFormatMatch formats value = some dt →
       pastDateTimeField_db_value formats now today value = .error .typeError)
  ∧ (∀ (formats : List (String → Option PyDate)) (today : PyDate)
       (value : String) (d : PyDate),
       value ≠ "" →
       firstFormatMatch formats value = some d →
       pastDateField_db_value formats today value =
         if pyDateGt d today then .error .valueError else .ok value) := by
  constructor
  · intro formats now today value dt hne h
    unfold pastDateTimeField_db_value
    rw [if_pos hne, h]
    rfl
  · intro formats today value d hne h
    unfold pastDateField_db_value
    rw [if_pos hne, h]

/-- Witness for C5: the past datetime string `"2000-01-01 00:00:00"` parses
(first format) yet raises `TypeError`; the analogous past date string is
accepted by `PastDateField`. -/
theorem pastDateTime_string_typeError_witness :
    pastDateTimeField_db_value
      [fun s => if s = "2000-01-01 00:00:00" then
          some ⟨2000, 1, 1, 0, 0, 0⟩ else none]
      ⟨2026, 10, 12, 9, 30, 0⟩ ⟨2026, 10, 12⟩ "2000-01-01 00:00:00"
      = .error .typeError
  ∧ pastDateField_db_value
      [fun s => if s = "2000-01-01" then some ⟨2000, 1, 1⟩ else none]
      ⟨2026, 10, 12⟩ "2000-01-01" = .ok "2000-01-01" := by
  constructor
  · exact pastDateTime_string_typeError.1 _ ⟨2026, 10, 12, 9, 30, 0⟩
      ⟨2026, 10, 12⟩ "2000-01-01 00:00:00" ⟨2000, 1, 1, 0, 0, 0⟩
      (by decide) rfl
  · have h := pastDateTime_string_typeError.2
      [fun s => if s = "2000-01-01" then some ⟨2000, 1, 1⟩ else none]
      ⟨2026, 10, 12⟩ "2000-01-01" ⟨2000, 1, 1⟩ (by decide) rfl
    rwa [if_neg (by decide)] at h

/-- C6: for every 2-character code present in the (parameterized) `ISO3166`
table, supplied in any letter case, `db_value` returns that entry's
`iso3166_numeric` as an integer; `python_value` of that integer succeeds, its
embedded numeric id is the same one, and — under the claim's reference-table
invariant that `INT2COUNTRY` maps the stored id back to its 2-character code —
it round-trips to the lowercased input code. -/
theorem country_iso_roundtrip
    (iso3166 : List (String × CountryRecord))
    (int2country : List (String × String))
    (inp code : String) (r : CountryRecord)
    (hnorm : pyStrip (pyLower inp) = code)
    (hlen : code.length = 2)
    (hmem : iso3166.lookup code = some r)
    (hpos : r.iso3166_numeric ≠ 0)
    (hinv : int2country.lookup (Nat.repr r.iso3166_numeric) = some code) :
    countryISOCodeField_db_value iso3166 inp = .ok (.int r.iso3166_numeric)
  ∧ ∃ t : CountryTuple,
      countryISOCodeField_python_value iso3166 int2country r.iso3166_numeric
        = .ok (.tuple t)
      ∧ t.iso3166_numeric = r.iso3166_numeric
      ∧ int2country.lookup (Nat.repr t.iso3166_numeric)
          = some (pyStrip (pyLower inp)) := by
  have hne : inp ≠ "" := by
    intro he
    rw [he] at hnorm
    rw [hnorm.symm] at hlen
    exact absurd hlen (by decide)
  constructor
  · unfold countryISOCodeField_db_value
    rw [if_pos hne, hnorm, if_neg (by simp [hlen]), hmem]
  · have h1 : countryISOCodeField_python_value iso3166 int2country
        r.iso3166_numeric = .ok (.tuple
          ⟨pyUpper r.iso3166_a3, r.iso3166_numeric, pyTitle r.capital,
           pyTitle r.continent, pyUpper r.currency_code,
           pyTitle r.currency_name, r.geoname_id, r.is_developed,
           r.is_independent, r.languages, pyTitle r.name,
           pyTitle r.name_human, r.phone_code, r.timezones, r.tld⟩) := by
      unfold countryISOCodeField_python_value
      rw [if_pos hpos, hinv]
      simp only [hmem]
    exact ⟨_, h1, rfl, by rw [hnorm]; exact hinv⟩

/-- Witness for C6 with a one-entry reference table for Germany
(`de` ↦ 276) and the matching reverse entry, at the uppercase input `"DE"`. -/
theorem country_iso_roundtrip_witness :
    countryISOCodeField_db_value
      [("de", ⟨"deu", 276, "berlin", "europe", "eur", "euro", 2921044, true,
               true, ["de"], "germany", "germany", "+49", ["europe/berlin"],
               ".de"⟩)]
      "DE" = .ok (.int 276) :=
  (country_iso_roundtrip
    [("de", ⟨"deu", 276, "berlin", "europe", "eur", "euro", 2921044, true,
             true, ["de"], "germany", "germany", "+49", ["europe/berlin"],
             ".de"⟩)]
    [("276", "de")] "DE" "de"
    ⟨"deu", 276, "berlin", "europe", "eur", "euro", 2921044, true, true,
     ["de"], "germany", "germany", "+49", ["europe/berlin"], ".de"⟩
    (by decide) (by decide) (by decide) (by decide) (by decide)).1

/-! ### IBAN helper lemmas -/

theorem alnum_not_pySpace (c : Char) (h : alnumUpper c = true) :
    pySpace c = false := by
  unfold pySpace
  simp only [decide_eq_false_iff_not]
  intro hc
  rcases hc with he | he | he | he | he | he <;>
    (subst he; exact absurd h (by decide))

theorem alnum_ne_space (c : Char) (h : alnumUpper c = true) : c ≠ ' ' :=
  fun he => by subst he; exact absurd h (by decide)

theorem alnum_ne_hyphen (c : Char) (h : alnumUpper c = true) : c ≠ '-' :=
  fun he => by subst he; exact absurd h (by decide)

theorem alnum_toUpper_fix (c : Char) (h : alnumUpper c = true) :
    c.toUpper = c := by
  unfold alnumUpper at h
  have h' : (48 ≤ c.toNat ∧ c.toNat ≤ 57) ∨ (65 ≤ c.toNat ∧ c.toNat ≤ 90) :=
    of_decide_eq_true h
  have hn : ¬ (c.toNat ≥ 97 ∧ c.toNat ≤ 122) := by omega
  unfold Char.toUpper
  exact if_neg hn

theorem alnum_of_digit_toLower (c : Char)
    (h : '0' ≤ c.toLower ∧ c.toLower ≤ '9') : alnumUpper c = true := by
  by_cases hc : c.toNat ≥ 65 ∧ c.toNat ≤ 90
  · exact decide_eq_true (Or.inr hc)
  · have he : c.toLower = c := by
      unfold Char.toLower
      exact if_neg hc
    rw [he] at h
    exact decide_eq_true (Or.inl h)

theorem dropWhile_eq_self_of (p : Char → Bool) (l : List Char)
    (h : ∀ c ∈ l, p c = false) : l.dropWhile p = l := by
  cases l with
  | nil => rfl
  | cons a r =>
    rw [List.dropWhile_cons]
    simp [h a (List.mem_cons_self a r)]

theorem stripList_eq_self (l : List Char) (h : ∀ c ∈ l, pySpace c = false) :
    stripList l = l := by
  unfold stripList
  rw [dropWhile_eq_self_of _ _ h,
      dropWhile_eq_self_of _ _ (fun c hc => h c (List.mem_reverse.mp hc)),
      List.reverse_reverse]

theorem map_eq_self_of (f : Char → Char) (l : List Char)
    (h : ∀ c ∈ l, f c = c) : l.map f = l := by
  induction l with
  | nil => rfl
  | cons a r ih =>
    rw [List.map_cons, h a (List.mem_cons_self a r),
        ih (fun c hc => h c (List.mem_cons_of_mem a hc))]

theorem string_mk_toList (s : String) : String.mk s.toList = s := rfl

theorem ibanNormalize_fix (l : List Char) (h : ∀ c ∈ l, alnumUpper c = true) :
    ibanNormalize (String.mk l) = String.mk l := by
  unfold ibanNormalize
  have e1 : pyStrip (String.mk l) = String.mk l := by
    unfold pyStrip
    show String.mk (stripList l) = String.mk l
    rw [stripList_eq_self l (fun c hc => alnum_not_pySpace c (h c hc))]
  rw [e1]
  have e2 : removeChar ' ' (String.mk l) = String.mk l := by
    unfold removeChar
    show String.mk (l.filter _) = String.mk l
    rw [List.filter_eq_self.mpr
      (fun a ha => decide_eq_true (alnum_ne_space a (h a ha)))]
  rw [e2]
  have e3 : removeChar '-' (String.mk l) = String.mk l := by
    unfold removeChar
    show String.mk (l.filter _) = String.mk l
    rw [List.filter_eq_self.mpr
      (fun a ha => decide_eq_true (alnum_ne_hyphen a (h a ha)))]
  rw [e3]
  unfold pyUpper
  show String.mk (l.map Char.toUpper) = String.mk l
  rw [map_eq_self_of _ l (fun c hc => alnum_toUpper_fix c (h c hc))]

theorem ibanCollectDigits_eq_spec (l : List Char) :
    ibanCollectDigits l =
      match specIbanDigits l with
      | some ds => .ok ds
      | none => .error .nameError := by
  induction l with
  | nil => rfl
  | cons c r ih =>
    unfold ibanCollectDigits specIbanDigits ibanCharDigits
    by_cases h1 : '0' ≤ c ∧ c ≤ '9'
    · simp only [h1, if_true]
      rw [ih]
      cases specIbanDigits r <;> simp
    · by_cases h2 : 'A' ≤ c ∧ c ≤ 'Z'
      · simp only [h1, h2, if_false, if_true]
        rw [ih]
        cases specIbanDigits r <;> simp
      · simp only [h1, h2, if_false]

theorem specIbanDigits_isSome (l : List Char) (h : l.all alnumUpper = true) :
    ∃ ds, specIbanDigits l = some ds := by
  induction l with
  | nil => exact ⟨[], rfl⟩
  | cons c r ih =>
    rw [List.all_cons, Bool.and_eq_true] at h
    obtain ⟨ds, hds⟩ := ih h.2
    have h' : ('0' ≤ c ∧ c ≤ '9') ∨ ('A' ≤ c ∧ c ≤ 'Z') :=
      of_decide_eq_true h.1
    unfold specIbanDigits
    rcases h' with h' | h'
    · exact ⟨c :: ds, by rw [if_pos h', hds]; rfl⟩
    · have hnd : ¬ ('0' ≤ c ∧ c ≤ '9') := by
        have hz : 65 ≤ c.toNat ∧ c.toNat ≤ 90 := h'
        show ¬ (48 ≤ c.toNat ∧ c.toNat ≤ 57)
        omega
      exact ⟨(Nat.repr (c.toNat - 55)).toList ++ ds,
        by rw [if_neg hnd, if_pos h', hds]; rfl⟩

/-- C1 counterexample: on input `"DE00@X"` (with `de` a known country code)
the normalized value is nonempty, short enough, and has a known country code
and digit characters 3-4 — yet `db_value` raises `NameError` (the static
method's error branch references the undefined name `self`): neither the
claimed `ValueError` nor the normalized value is produced. -/
theorem iban_nameError_cex :
    ibanISOCodeField_db_value ["de"] "DE00@X" = .error .nameError
  ∧ ibanISOCodeField_db_value ["de"] "DE00@X" ≠ .error .valueError
  ∧ ibanISOCodeField_db_value ["de"] "DE00@X" ≠ .ok (ibanNormalize "DE00@X") :=
  ⟨by decide, by decide, by decide⟩

/-- C1 (amended): restricted to inputs whose normalized country-code and body
characters are digits or uppercase letters — the class on which the claim's
check-digit number `N` is defined — `db_value` raises `ValueError` exactly
under the claim's five conditions and otherwise returns the normalized string
unchanged.  (On other characters the code instead raises `NameError`, see the
counterexample.) -/
theorem iban_db_value_amended (tbl : List String) (value : String)
    (halnum : ibanBodyAlnum (ibanNormalize value) = true) :
    ibanISOCodeField_db_value tbl value =
      if ibanClaimReject tbl (ibanNormalize value) then .error .valueError
      else .ok (ibanNormalize value) := by
  unfold ibanISOCodeField_db_value ibanClaimReject
  by_cases h1 : ibanNormalize value = ""
  · rw [if_pos h1, if_pos (Or.inl h1)]
  · rw [if_neg h1]
    by_cases h2 : (ibanNormalize value).length > 34
    · rw [if_pos h2, if_pos (Or.inr (Or.inl h2))]
    · rw [if_neg h2]
      by_cases h3 : tbl.contains
          (pyLower (String.mk ((ibanNormalize value).toList.take 2))) = true
      · rw [if_neg (not_not_intro h3)]
        by_cases h4 : pyIsdigit (pyLower (String.mk
            (((ibanNormalize value).toList.drop 2).take 2))) = true
        · rw [if_neg (not_not_intro h4)]
          have hmid : ∀ c ∈ ((ibanNormalize value).toList.drop 2).take 2,
              alnumUpper c = true := by
            intro c hc
            unfold pyIsdigit at h4
            rw [Bool.and_eq_true] at h4
            have h42 : ((((ibanNormalize value).toList.drop 2).take 2).map
                Char.toLower).all
                  (fun c => decide ('0' ≤ c ∧ c ≤ '9')) = true := h4.2
            have hx := List.all_eq_true.mp h42 c.toLower
              (List.mem_map.mpr ⟨c, hc, rfl⟩)
            exact alnum_of_digit_toLower c (of_decide_eq_true hx)
          have hAll : ∀ c ∈ (ibanNormalize value).toList,
              alnumUpper c = true := by
            unfold ibanBodyAlnum at halnum
            rw [Bool.and_eq_true] at halnum
            intro c hc
            have e1 := (List.take_append_drop 2
              (ibanNormalize value).toList).symm
            have e2 := (List.take_append_drop 2
              ((ibanNormalize value).toList.drop 2)).symm
            rw [e2] at e1
            rw [e1] at hc
            rcases List.mem_append.mp hc with hx | hx
            · exact List.all_eq_true.mp halnum.2 c hx
            · rcases List.mem_append.mp hx with hy | hy
              · exact hmid c hy
              · have e3 : ((ibanNormalize value).toList.drop 2).drop 2 =
                    (ibanNormalize value).toList.drop 4 := by
                  rw [List.drop_drop]
                exact List.all_eq_true.mp halnum.1 c (e3 ▸ hy)
          have hfix : ibanNormalize (ibanNormalize value) =
              ibanNormalize value :=
            ibanNormalize_fix (ibanNormalize value).toList hAll
          obtain ⟨ds, hds⟩ := specIbanDigits_isSome
            ((ibanNormalize value).toList.drop 4 ++
             (ibanNormalize value).toList.take 2 ++ ['0', '0'])
            (by
              rw [List.all_append, List.all_append]
              simp only [Bool.and_eq_true]
              exact ⟨⟨List.all_eq_true.mpr
                  (fun c hc => hAll c (List.mem_of_mem_drop hc)),
                List.all_eq_true.mpr
                  (fun c hc => hAll c (List.mem_of_mem_take hc))⟩, by decide⟩)
          have hchk : get_iban_checksum (ibanNormalize value) =
              .ok (pad2 (98 - natOfDigits ds % 97)) := by
            unfold get_iban_checksum
            rw [hfix, ibanCollectDigits_eq_spec, hds]
          rw [hchk]
          have hc5 : specIbanCheckDigits (ibanNormalize value) =
              some (pad2 (98 - natOfDigits ds % 97)) := by
            unfold specIbanCheckDigits
            rw [hds]
            rfl
          show (if pad2 (98 - natOfDigits ds % 97) ≠
              String.mk (((ibanNormalize value).toList.drop 2).take 2) then
              (Except.error PyErr.valueError : Except PyErr String)
            else .ok (ibanNormalize value)) = _
          by_cases h5 : pad2 (98 - natOfDigits ds % 97) ≠
              String.mk (((ibanNormalize value).toList.drop 2).take 2)
          · rw [if_pos h5, if_pos ?hrej]
            case hrej =>
              refine Or.inr (Or.inr (Or.inr (Or.inr ?_)))
              rw [hc5]
              simpa using h5
          · rw [if_neg h5, if_neg ?hnorej]
            case hnorej =>
              intro hcl
              rcases hcl with hc | hc | hc | hc | hc
              · exact h1 hc
              · exact h2 hc
              · exact hc h3
              · exact hc h4
              · rw [hc5] at hc
                exact h5 (by simpa using hc)
        · rw [if_pos h4, if_pos (Or.inr (Or.inr (Or.inr (Or.inl h4))))]
      · rw [if_pos h3, if_pos (Or.inr (Or.inr (Or.inl h3)))]

/-- Witness for C1's amended theorem at the spec's example IBAN
`DE44 5001 0517 5407 3249 31` (table containing `de`): the value is accepted
and returned in normalized form. -/
theorem iban_db_value_amended_witness :
    ibanBodyAlnum (ibanNormalize "DE44 5001 0517 5407 3249 31") = true
  ∧ ibanISOCodeField_db_value ["de"] "DE44 5001 0517 5407 3249 31"
      = .ok "DE44500105175407324931" := by
  refine ⟨by decide, ?_⟩
  have h := iban_db_value_amended ["de"] "DE44 5001 0517 5407 3249 31"
    (by decide)
  rw [h, if_neg (by decide)]
  decide

/-! ### SemVer helper lemmas -/

theorem takeWhile_append_all (q : Char → Bool) (a b : List Char)
    (h : ∀ c ∈ a, q c = true) :
    (a ++ b).takeWhile q = a ++ b.takeWhile q := by
  induction a with
  | nil => rfl
  | cons c r ih =>
    rw [List.cons_append,
      List.takeWhile_cons_of_pos (h c (List.mem_cons_self c r)),
      ih (fun x hx => h x (List.mem_cons_of_mem _ hx)), List.cons_append]

theorem dropWhile_append_all (q : Char → Bool) (a b : List Char)
    (h : ∀ c ∈ a, q c = true) :
    (a ++ b).dropWhile q = b.dropWhile q := by
  induction a with
  | nil => rfl
  | cons c r ih =>
    rw [List.cons_append,
      List.dropWhile_cons_of_pos (h c (List.mem_cons_self c r)),
      ih (fun x hx => h x (List.mem_cons_of_mem _ hx))]

theorem dropWhile_of_takeWhile_nil (q : Char → Bool) (l : List Char)
    (h : l.takeWhile q = []) : l.dropWhile q = l := by
  cases l with
  | nil => rfl
  | cons c r =>
    by_cases hc : q c = true
    · rw [List.takeWhile_cons_of_pos hc] at h
      exact absurd h (by simp)
    · exact List.dropWhile_cons_of_neg hc

theorem take1_eq_cons (l : List Char) (c : Char) (h : l.take 1 = [c]) :
    l = c :: l.drop 1 := by
  cases l with
  | nil => exact absurd h (by simp)
  | cons a r =>
    have : a = c := by simpa using h
    simp [this]

theorem word_of_digit (c : Char) (h : digitCh c = true) : isWordChar c = true :=
  decide_eq_true (Or.inl (of_decide_eq_true h))

theorem parseNumSplit_spec (l ds r : List Char)
    (h : parseNumSplit l = some (ds, r)) :
    l = ds ++ r ∧ ds ≠ [] ∧ (∀ c ∈ ds, digitCh c = true)
    ∧ ¬(1 < ds.length ∧ ds.take 1 = ['0']) := by
  unfold parseNumSplit at h
  by_cases c1 : l.takeWhile digitCh = []
  · rw [if_pos c1] at h; exact Option.noConfusion h
  · rw [if_neg c1] at h
    by_cases c2 : 1 < (l.takeWhile digitCh).length ∧
        (l.takeWhile digitCh).take 1 = ['0']
    · rw [if_pos c2] at h; exact Option.noConfusion h
    · rw [if_neg c2] at h
      simp only [Option.some.injEq, Prod.mk.injEq] at h
      obtain ⟨h1, h2⟩ := h
      subst h1
      subst h2
      exact ⟨(List.takeWhile_append_dropWhile digitCh l).symm, c1,
        fun c hc => List.mem_takeWhile_imp hc, c2⟩

theorem parseNumSplit_replay (ds x : List Char) (hne : ds ≠ [])
    (hall : ∀ c ∈ ds, digitCh c = true)
    (hnz : ¬(1 < ds.length ∧ ds.take 1 = ['0']))
    (hx : x.takeWhile digitCh = []) :
    parseNumSplit (ds ++ x) = some (ds, x) := by
  have htw : (ds ++ x).takeWhile digitCh = ds := by
    rw [takeWhile_append_all _ _ _ hall, hx, List.append_nil]
  have hdw : (ds ++ x).dropWhile digitCh = x := by
    rw [dropWhile_append_all _ _ _ hall, dropWhile_of_takeWhile_nil _ _ hx]
  unfold parseNumSplit
  rw [htw, hdw, if_neg hne, if_neg hnz]

theorem parseMMP_spec (l p r : List Char) (h : parseMMP l = some (p, r)) :
    ∃ V ds1 ds2 ds3 : List Char,
      (V = [] ∨ V = ['v'])
      ∧ p = V ++ ds1 ++ ['.'] ++ ds2 ++ ['.'] ++ ds3
      ∧ l = p ++ r
      ∧ ds1 ≠ [] ∧ (∀ c ∈ ds1, digitCh c = true)
        ∧ ¬(1 < ds1.length ∧ ds1.take 1 = ['0'])
      ∧ ds2 ≠ [] ∧ (∀ c ∈ ds2, digitCh c = true)
        ∧ ¬(1 < ds2.length ∧ ds2.take 1 = ['0'])
      ∧ ds3 ≠ [] ∧ (∀ c ∈ ds3, digitCh c = true)
        ∧ ¬(1 < ds3.length ∧ ds3.take 1 = ['0']) := by
  unfold parseMMP at h
  cases h1 : parseNumSplit (if l.take 1 = ['v'] then l.drop 1 else l) with
  | none => rw [h1] at h; exact Option.noConfusion h
  | some pr1 =>
    obtain ⟨ds1, r1⟩ := pr1
    rw [h1] at h
    simp only at h
    by_cases hd1 : r1.take 1 = ['.']
    case neg => rw [if_neg hd1] at h; exact Option.noConfusion h
    rw [if_pos hd1] at h
    cases h2 : parseNumSplit (r1.drop 1) with
    | none => rw [h2] at h; exact Option.noConfusion h
    | some pr2 =>
      obtain ⟨ds2, r2⟩ := pr2
      rw [h2] at h
      simp only at h
      by_cases hd2 : r2.take 1 = ['.']
      case neg => rw [if_neg hd2] at h; exact Option.noConfusion h
      rw [if_pos hd2] at h
      cases h3 : parseNumSplit (r2.drop 1) with
      | none => rw [h3] at h; exact Option.noConfusion h
      | some pr3 =>
        obtain ⟨ds3, r3⟩ := pr3
        rw [h3] at h
        simp only [Option.some.injEq, Prod.mk.injEq] at h
        obtain ⟨hp, hr⟩ := h
        obtain ⟨e1, n1, a1, z1⟩ := parseNumSplit_spec _ _ _ h1
        obtain ⟨e2, n2, a2, z2⟩ := parseNumSplit_spec _ _ _ h2
        obtain ⟨e3, n3, a3, z3⟩ := parseNumSplit_spec _ _ _ h3
        subst hr
        by_cases hv : l.take 1 = ['v']
        · rw [if_pos hv] at hp
          rw [if_pos hv] at e1
          refine ⟨['v'], ds1, ds2, ds3, Or.inr rfl, hp.symm, ?_,
            n1, a1, z1, n2, a2, z2, n3, a3, z3⟩
          calc l = 'v' :: l.drop 1 := take1_eq_cons l 'v' hv
            _ = 'v' :: (ds1 ++ r1) := by rw [e1]
            _ = 'v' :: (ds1 ++ ('.' :: (ds2 ++ r2))) := by
                rw [take1_eq_cons r1 '.' hd1, e2]
            _ = 'v' :: (ds1 ++ ('.' :: (ds2 ++ ('.' :: (ds3 ++ r3))))) := by
                rw [take1_eq_cons r2 '.' hd2, e3]
            _ = (['v'] ++ ds1 ++ ['.'] ++ ds2 ++ ['.'] ++ ds3) ++ r3 := by
                simp [List.append_assoc]
            _ = p ++ r3 := by rw [hp]
        · rw [if_neg hv] at hp
          rw [if_neg hv] at e1
          refine ⟨[], ds1, ds2, ds3, Or.inl rfl, hp.symm, ?_,
            n1, a1, z1, n2, a2, z2, n3, a3, z3⟩
          calc l = ds1 ++ r1 := e1
            _ = ds1 ++ ('.' :: (ds2 ++ r2)) := by
                rw [take1_eq_cons r1 '.' hd1, e2]
            _ = ds1 ++ ('.' :: (ds2 ++ ('.' :: (ds3 ++ r3)))) := by
                rw [take1_eq_cons r2 '.' hd2, e3]
            _ = ([] ++ ds1 ++ ['.'] ++ ds2 ++ ['.'] ++ ds3) ++ r3 := by
                simp [List.append_assoc]
            _ = p ++ r3 := by rw [hp]

theorem parseMMP_replay (V ds1 ds2 ds3 : List Char)
    (hV : V = [] ∨ V = ['v'])
    (n1 : ds1 ≠ []) (a1 : ∀ c ∈ ds1, digitCh c = true)
    (z1 : ¬(1 < ds1.length ∧ ds1.take 1 = ['0']))
    (n2 : ds2 ≠ []) (a2 : ∀ c ∈ ds2, digitCh c = true)
    (z2 : ¬(1 < ds2.length ∧ ds2.take 1 = ['0']))
    (n3 : ds3 ≠ []) (a3 : ∀ c ∈ ds3, digitCh c = true)
    (z3 : ¬(1 < ds3.length ∧ ds3.take 1 = ['0'])) :
    parseMMP (V ++ ds1 ++ ['.'] ++ ds2 ++ ['.'] ++ ds3)
      = some (V ++ ds1 ++ ['.'] ++ ds2 ++ ['.'] ++ ds3, []) := by
  obtain ⟨c, t, hds1⟩ : ∃ c t, ds1 = c :: t := by
    cases ds1 with
    | nil => exact absurd rfl n1
    | cons c t => exact ⟨c, t, rfl⟩
  have hcd : digitCh c = true := a1 c (hds1 ▸ List.mem_cons_self c t)
  have hr1 := parseNumSplit_replay ds1 ('.' :: (ds2 ++ '.' :: ds3)) n1 a1 z1
    (List.takeWhile_cons_of_neg (by decide))
  have hr2 := parseNumSplit_replay ds2 ('.' :: ds3) n2 a2 z2
    (List.takeWhile_cons_of_neg (by decide))
  have hr3 := parseNumSplit_replay ds3 [] n3 a3 z3 rfl
  rw [List.append_nil] at hr3
  rcases hV with hV | hV
  · subst hV
    have hvc : ¬ ([] ++ ds1 ++ ['.'] ++ ds2 ++ ['.'] ++ ds3).take 1 = ['v']
        := by
      intro he
      rw [hds1] at he
      simp only [List.nil_append, List.cons_append, List.take_succ_cons,
        List.take_zero, List.cons.injEq, and_true] at he
      rw [he] at hcd
      exact absurd hcd (by decide)
    unfold parseMMP
    rw [if_neg hvc, if_neg hvc]
    have hid : ([] ++ ds1 ++ ['.'] ++ ds2 ++ ['.'] ++ ds3)
        = ds1 ++ '.' :: (ds2 ++ '.' :: ds3) := by
      simp [List.append_assoc]
    rw [hid, hr1]
    simp [hr2, hr3, List.append_assoc]
  · subst hV
    have hvc : (['v'] ++ ds1 ++ ['.'] ++ ds2 ++ ['.'] ++ ds3).take 1 = ['v']
        := by
      simp [List.cons_append]
    unfold parseMMP
    rw [if_pos hvc, if_pos hvc]
    have hdrop : (['v'] ++ ds1 ++ ['.'] ++ ds2 ++ ['.'] ++ ds3).drop 1
        = ds1 ++ '.' :: (ds2 ++ '.' :: ds3) := by
      simp [List.append_assoc]
    rw [hdrop, hr1]
    simp [hr2, hr3, List.append_assoc]

theorem tailOk_head (cls : Char → Bool) (r : List Char)
    (h : tailOk cls r = true) :
    r = [] ∨ (∃ rr, r = '-' :: rr) ∨ (∃ rr, r = '+' :: rr) := by
  by_cases h0 : r = []
  · exact Or.inl h0
  · unfold tailOk at h
    rw [if_neg h0] at h
    by_cases h1 : r.take 1 = ['-']
    · exact Or.inr (Or.inl ⟨r.drop 1, take1_eq_cons r '-' h1⟩)
    · rw [if_neg h1] at h
      by_cases h2 : r.take 1 = ['+']
      · exact Or.inr (Or.inr ⟨r.drop 1, take1_eq_cons r '+' h2⟩)
      · rw [if_neg h2] at h
        exact absurd h (by decide)

/-- C8: counterexample to the claim as stated.  `SemVerField.db_value`
accepts `"1.2.3 junk"`, which is not in the canonical SemVer grammar: the
pattern is applied with `re.match`, which anchors only the start of the
value, and it ends in `\b` rather than `$`, so any string with a valid
prefix ending at a word boundary passes. -/
theorem semver_trailing_junk_cex :
    semVerField_db_value "1.2.3 junk" = .ok "1.2.3 junk"
    ∧ isCanonicalSemVer "1.2.3 junk" = false := by
  exact ⟨by decide, by decide⟩

/-- C8 (amended): `SemVerField.db_value` strips the value and accepts it iff
its length lies between 1 and 255 and the compiled pattern matches, where
matching means some nonempty *prefix* lies in the SemVer core language with
word boundaries at both ends (conjunct 1).  Every canonical SemVer string
(optionally 'v'-prefixed MAJOR.MINOR.PATCH without leading zeros, optional
-prerelease/+build over `[0-9A-Za-z-]`) of length at most 255 is still
accepted (conjunct 2), including the claim's examples (conjuncts 3-4), and
`"01.2.3"` is rejected (conjunct 5); but strings with trailing junk after a
word boundary are accepted too, refuting the claimed exactness. -/
theorem semver_db_value_amended :
    (∀ s : String,
      semVerField_db_value s
        = if 1 ≤ (pyStrip s).length ∧ (pyStrip s).length ≤ 255
             ∧ semVerMatch (pyStrip s) = true
          then .ok (pyStrip s) else .error .valueError)
    ∧ (∀ s : String, isCanonicalSemVer s = true → pyStrip s = s →
        s.length ≤ 255 → semVerField_db_value s = .ok s)
    ∧ semVerField_db_value "1.2.3-alpha.10.beta.0+build.unicorn.rainbow"
        = .ok "1.2.3-alpha.10.beta.0+build.unicorn.rainbow"
    ∧ semVerField_db_value "1.2.3-4" = .ok "1.2.3-4"
    ∧ semVerField_db_value "01.2.3" = .error .valueError := by
  refine ⟨?_, ?_, by decide, by decide, by decide⟩
  · intro s
    unfold semVerField_db_value regexFieldDbValue
    by_cases h1 : (pyStrip s).length > 255
    · rw [if_pos h1, if_neg (fun hc => absurd hc.2.1 (by omega))]
    · rw [if_neg h1]
      by_cases h2 : (pyStrip s).length < 1
      · rw [if_pos h2, if_neg (fun hc => absurd hc.1 (by omega))]
      · rw [if_neg h2]
        by_cases h3 : semVerMatch (pyStrip s) = true
        · rw [if_neg (fun hc => hc h3), if_pos ⟨by omega, by omega, h3⟩]
        · rw [if_pos h3, if_neg (fun hc => h3 hc.2.2)]
  · intro s hcanon hstrip hlen
    unfold isCanonicalSemVer semverCore at hcanon
    cases hp : parseMMP s.toList with
    | none => rw [hp] at hcanon; exact absurd hcanon (by decide)
    | some pr =>
      obtain ⟨p, r⟩ := pr
      rw [hp] at hcanon
      simp only at hcanon
      obtain ⟨V, ds1, ds2, ds3, hV, hpe, hle, n1, a1, z1, n2, a2, z2,
        n3, a3, z3⟩ := parseMMP_spec _ _ _ hp
      have hrep := parseMMP_replay V ds1 ds2 ds3 hV n1 a1 z1 n2 a2 z2 n3 a3 z3
      rw [← hpe] at hrep
      have htake : s.toList.take p.length = p := by
        rw [hle]; exact List.take_left p r
      have hdropr : s.toList.drop p.length = r := by
        rw [hle]; exact List.drop_left p r
      have hcore : semverCore semverRegexClass (s.toList.take p.length)
          = true := by
        rw [htake]; unfold semverCore; rw [hrep]; rfl
      have hppos : 0 < p.length := by
        rw [List.length_pos, hpe]
        simp
      have hlenl : s.toList.length = p.length + r.length := by
        rw [hle, List.length_append]
      obtain ⟨d, hd⟩ : ∃ d, ds3.getLast? = some d := by
        cases hq : ds3.getLast? with
        | none => exact absurd (List.getLast?_eq_none_iff.mp hq) n3
        | some d => exact ⟨d, rfl⟩
      have hgl : p.getLast? = some d := by
        rw [hpe, List.getLast?_append_of_ne_nil _ n3]
        exact hd
      have hdd : digitCh d = true := a3 d (List.mem_of_mem_getLast? hd)
      have hwb : wordBoundaryAt s.toList p.length = true := by
        unfold wordBoundaryAt
        rw [htake, hgl, hdropr]
        rcases tailOk_head _ _ hcanon with h0 | ⟨rr, h0⟩ | ⟨rr, h0⟩ <;>
          subst h0
        · exact word_of_digit d hdd
        · exact decide_eq_true (by rw [word_of_digit d hdd]; decide)
        · exact decide_eq_true (by rw [word_of_digit d hdd]; decide)
      obtain ⟨c0, t0, hds1c⟩ : ∃ c t, ds1 = c :: t := by
        cases ds1 with
        | nil => exact absurd rfl n1
        | cons c t => exact ⟨c, t, rfl⟩
      have hhead : (match s.toList.head? with
          | some c => isWordChar c | none => false) = true := by
        rw [hle, hpe]
        rcases hV with hV | hV <;> subst hV
        · rw [hds1c]
          simp only [List.nil_append, List.cons_append, List.head?_cons]
          exact word_of_digit c0 (a1 c0 (hds1c ▸ List.mem_cons_self c0 t0))
        · simp only [List.cons_append, List.singleton_append, List.head?_cons]
          decide
      have hmem : p.length ∈ List.range (s.toList.length + 1) :=
        List.mem_range.mpr (by omega)
      have hmatch : semVerMatch s = true := by
        unfold semVerMatch
        rw [List.any_eq_true]
        refine ⟨p.length, hmem, ?_⟩
        simp only [Bool.and_eq_true]
        exact ⟨⟨⟨by simpa using hppos, hcore⟩, hhead⟩, hwb⟩
      have hlstr : s.length = s.toList.length := rfl
      unfold semVerField_db_value regexFieldDbValue
      rw [hstrip]
      rw [if_neg (by omega), if_neg (by omega), if_neg (fun hc => hc hmatch)]

/-- Witness for the SemVer amendment: a canonical version with uppercase
prerelease and build identifiers is accepted and returned stripped. -/
theorem semver_db_value_amended_witness :
    semVerField_db_value "v1.2.3-ALPHA+B.1" = .ok "v1.2.3-ALPHA+B.1" :=
  semver_db_value_amended.2.1 "v1.2.3-ALPHA+B.1" (by decide) (by decide)
    (by decide)

/-! ### Color helper lemmas -/

theorem hashhex_not_pySpace (c : Char) (h : c = '#' ∨ isLowerHex c = true) :
    pySpace c = false := by
  rcases h with he | hx
  · subst he; decide
  · unfold pySpace
    simp only [decide_eq_false_iff_not]
    intro hc
    rcases hc with he | he | he | he | he | he <;>
      (subst he; exact absurd hx (by decide))

theorem hashhex_ne_hyphen (c : Char) (h : c = '#' ∨ isLowerHex c = true) :
    c ≠ '-' := by
  rcases h with he | hx
  · subst he; decide
  · intro he; subst he; exact absurd hx (by decide)

theorem hashhex_toLower_fix (c : Char) (h : c = '#' ∨ isLowerHex c = true) :
    c.toLower = c := by
  rcases h with he | hx
  · subst he; decide
  · have h' : (48 ≤ c.toNat ∧ c.toNat ≤ 57) ∨ (97 ≤ c.toNat ∧ c.toNat ≤ 102) :=
      of_decide_eq_true hx
    have hn : ¬ (c.toNat ≥ 65 ∧ c.toNat ≤ 90) := by omega
    unfold Char.toLower
    exact if_neg hn

theorem colorNormList_fix (l : List Char)
    (h : ∀ c ∈ l, c = '#' ∨ isLowerHex c = true) :
    colorNormList (String.mk l) = l := by
  unfold colorNormList
  show stripList ((l.map Char.toLower).filter _) = l
  rw [map_eq_self_of _ l (fun c hc => hashhex_toLower_fix c (h c hc)),
      List.filter_eq_self.mpr
        (fun a ha => decide_eq_true (hashhex_ne_hyphen a (h a ha))),
      stripList_eq_self l (fun c hc => hashhex_not_pySpace c (h c hc))]

theorem pyIntDigitsRest_hex (l : List Char) (h : ∀ c ∈ l, isLowerHex c = true)
    (acc : Nat) : ∃ n, pyIntDigitsRest hexDigitVal 16 acc l = some n := by
  induction l generalizing acc with
  | nil => exact ⟨acc, rfl⟩
  | cons c r ih =>
    have hc := h c (List.mem_cons_self c r)
    have hne : c ≠ '_' := fun he => by subst he; exact absurd hc (by decide)
    have hdv : ∃ d, hexDigitVal c = some d := by
      unfold hexDigitVal
      rcases of_decide_eq_true hc with h' | h'
      · exact ⟨_, if_pos h'⟩
      · have hnd : ¬ ('0' ≤ c ∧ c ≤ '9') := by
          have hz : 97 ≤ c.toNat ∧ c.toNat ≤ 102 := h'
          show ¬ (48 ≤ c.toNat ∧ c.toNat ≤ 57)
          omega
        exact ⟨_, by rw [if_neg hnd, if_pos h']⟩
    obtain ⟨d, hd⟩ := hdv
    obtain ⟨n, hn⟩ := ih (fun x hx => h x (List.mem_cons_of_mem _ hx))
      (acc * 16 + d)
    exact ⟨n, by unfold pyIntDigitsRest; rw [if_neg hne, hd]; exact hn⟩

theorem pyIntCore_hex_some (l : List Char) (hne : l ≠ [])
    (h : ∀ c ∈ l, isLowerHex c = true) :
    (pyIntCore hexDigitVal 16 true l).isNone = false := by
  obtain ⟨c, r, rfl⟩ : ∃ c r, l = c :: r := by
    cases l with
    | nil => exact absurd rfl hne
    | cons c r => exact ⟨c, r, rfl⟩
  have hc := h c (List.mem_cons_self c r)
  have hst : stripList (c :: r) = c :: r :=
    stripList_eq_self _ (fun x hx => hashhex_not_pySpace x (Or.inr (h x hx)))
  unfold pyIntCore
  rw [hst]
  rw [if_neg (show ¬ (c :: r).take 1 = ['+'] by
    intro he; simp at he; subst he; exact absurd hc (by decide))]
  rw [if_neg (show ¬ (c :: r).take 1 = ['-'] by
    intro he; simp at he; subst he; exact absurd hc (by decide))]
  unfold pyIntAfterSign
  rw [if_neg (show ¬ (true = true ∧ ((c :: r).take 2 = ['0', 'x'] ∨
      (c :: r).take 2 = ['0', 'X'])) by
    rintro ⟨-, h2 | h2⟩
    · have hx : 'x' ∈ c :: r := List.mem_of_mem_take
        (by rw [h2]; exact List.mem_cons_of_mem _ (List.mem_cons_self _ _))
      exact absurd (h 'x' hx) (by decide)
    · have hx : 'X' ∈ c :: r := List.mem_of_mem_take
        (by rw [h2]; exact List.mem_cons_of_mem _ (List.mem_cons_self _ _))
      exact absurd (h 'X' hx) (by decide))]
  have hdv : ∃ d, hexDigitVal c = some d := by
    unfold hexDigitVal
    rcases of_decide_eq_true hc with h' | h'
    · exact ⟨_, if_pos h'⟩
    · have hnd : ¬ ('0' ≤ c ∧ c ≤ '9') := by
        have hz : 97 ≤ c.toNat ∧ c.toNat ≤ 102 := h'
        show ¬ (48 ≤ c.toNat ∧ c.toNat ≤ 57)
        omega
      exact ⟨_, by rw [if_neg hnd, if_pos h']⟩
  obtain ⟨d, hd⟩ := hdv
  obtain ⟨n, hn⟩ :=
    pyIntDigitsRest_hex r (fun x hx => h x (List.mem_cons_of_mem _ hx)) d
  simp only [pyIntFromDigits, hd, hn, Option.some_bind, Option.map_some']
  rfl

theorem doubled_flatten_length (m : List Char) :
    ((m.map (fun c => [c, c])).flatten).length = 2 * m.length := by
  induction m with
  | nil => rfl
  | cons c r ih =>
    simp only [List.map_cons, List.flatten_cons, List.length_append, ih,
      List.length_cons, List.length_nil]
    omega

theorem take1_hash_of_startsWith (s : String)
    (h : pyStartsWith s "#" = true) : s.toList.take 1 = ['#'] := by
  unfold pyStartsWith at h
  cases hsl : s.toList with
  | nil => rw [hsl] at h; exact absurd h (by decide)
  | cons c r =>
    rw [hsl] at h
    have he : '#' = c := by simpa [List.isPrefixOf] using h
    simp [← he]

/-- Idempotence on values whose tail is made of lowercase hex digits: such a
7-character `#`-prefixed value is accepted and returned unchanged. -/
theorem color_db_value_fix (l : List Char)
    (hlen : l.length = 7)
    (hhex : ∀ c ∈ l.drop 1, isLowerHex c = true)
    (hhead : l.take 1 = ['#']) :
    colorHexadecimalField_db_value (String.mk l) = .ok (String.mk l) := by
  obtain ⟨r, rfl⟩ : ∃ r, l = '#' :: r := by
    cases l with
    | nil => exact absurd hhead (by decide)
    | cons c r =>
      have : c = '#' := by simpa using hhead
      exact ⟨r, by rw [this]⟩
  have hcls : ∀ c ∈ '#' :: r, c = '#' ∨ isLowerHex c = true := by
    intro c hc
    rcases List.mem_cons.mp hc with he | hr
    · exact Or.inl he
    · exact Or.inr (hhex c hr)
  have hfix : colorNormList (String.mk ('#' :: r)) = '#' :: r :=
    colorNormList_fix _ hcls
  have hr6 : r.length = 6 := by
    have := hlen
    simp only [List.length_cons] at this
    omega
  unfold colorHexadecimalField_db_value
  rw [hfix]
  rw [if_neg (by rw [hlen]; simp)]
  rw [if_neg (not_not_intro (show pyStartsWith (String.mk ('#' :: r)) "#" = true
    by simp [pyStartsWith, List.isPrefixOf]))]
  rw [if_neg (by
    have := pyIntCore_hex_some r (by
        intro he; rw [he] at hr6; exact absurd hr6 (by decide))
      (fun c hc => hhex c hc)
    simp only [List.drop_succ_cons, List.drop_zero]
    rw [this]
    simp)]
  rw [if_neg (by rw [hlen]; decide)]

/-- C9 counterexample: `"#+ab"` is accepted — `int("+ab", 16)` parses thanks
to the sign — and expands to `"#++aabb"`, but applying `db_value` to that
output raises `ValueError` (double sign), so `db_value` is not idempotent on
its own outputs. -/
theorem color_expand_not_idempotent_cex :
    colorHexadecimalField_db_value "#+ab" = .ok "#++aabb"
  ∧ colorHexadecimalField_db_value "#++aabb" = .error .valueError :=
  ⟨by decide, by decide⟩

/-- C9 (amended): the shorthand `"#abc"` expands to `"#aabbcc"` by doubling
each hex digit and 7-character values are returned unchanged; `db_value` is
idempotent on every accepted value whose tail consists of hexadecimal digits
(but not on exotic accepted inputs such as `"#+ab"`, see the counterexample);
and `python_value` yields identical structured colorspace records for the
stored forms of `"#abc"` and `"#aabbcc"`, for any colorsys interpretation. -/
theorem color_db_value_amended :
    colorHexadecimalField_db_value "#abc" = .ok "#aabbcc"
  ∧ colorHexadecimalField_db_value "#aabbcc" = .ok "#aabbcc"
  ∧ (∀ s w : String, colorHexadecimalField_db_value s = .ok w →
      (w.toList.drop 1).all isLowerHex = true →
      colorHexadecimalField_db_value w = .ok w)
  ∧ (∀ (α : Type) (f1 f2 f3 : Nat → Nat → Nat → α) (x y : String),
      colorHexadecimalField_db_value "#abc" = .ok x →
      colorHexadecimalField_db_value "#aabbcc" = .ok y →
      colorHexadecimalField_python_value f1 f2 f3 x =
        colorHexadecimalField_python_value f1 f2 f3 y) := by
  refine ⟨by decide, by decide, ?_, ?_⟩
  · intro s w h hhex
    unfold colorHexadecimalField_db_value at h
    by_cases hl : (colorNormList s).length ≠ 7 ∧ (colorNormList s).length ≠ 4
    · rw [if_pos hl] at h; exact Except.noConfusion h
    · rw [if_neg hl] at h
      by_cases hh : pyStartsWith (String.mk (colorNormList s)) "#" = true
      · rw [if_neg (not_not_intro hh)] at h
        by_cases hi : (pyIntCore hexDigitVal 16 true
            ((colorNormList s).drop 1)).isNone = true
        · rw [if_pos hi] at h; exact Except.noConfusion h
        · rw [if_neg hi] at h
          by_cases h4 : (colorNormList s).length = 4
          · rw [if_pos h4] at h
            have hw : String.mk ('#' :: (((colorNormList s).drop 1).map
                (fun c => [c, c])).flatten) = w := by
              injection h
            rw [← hw]
            rw [← hw] at hhex
            refine color_db_value_fix _ ?_ ?_ rfl
            · show ('#' :: _).length = 7
              rw [List.length_cons, doubled_flatten_length,
                List.length_drop, h4]
            · intro c hc
              exact List.all_eq_true.mp hhex c hc
          · rw [if_neg h4] at h
            have h7 : (colorNormList s).length = 7 := by
              by_contra h7
              exact hl ⟨h7, h4⟩
            have hw : String.mk (colorNormList s) = w := by injection h
            rw [← hw]
            rw [← hw] at hhex
            refine color_db_value_fix _ h7 ?_ ?_
            · intro c hc
              exact List.all_eq_true.mp hhex c hc
            · exact take1_hash_of_startsWith _ hh
      · rw [if_pos hh] at h; exact Except.noConfusion h
  · intro α f1 f2 f3 x y hx hy
    have h1 : colorHexadecimalField_db_value "#abc" = .ok "#aabbcc" := by
      decide
    have h2 : colorHexadecimalField_db_value "#aabbcc" = .ok "#aabbcc" := by
      decide
    rw [h1] at hx
    rw [h2] at hy
    have hx' : "#aabbcc" = x := by injection hx
    have hy' : "#aabbcc" = y := by injection hy
    rw [← hx', ← hy']

/-- Witness for C9's amended theorem: idempotence applied at the concrete pair
`"#abc"` ↦ `"#aabbcc"`, and record equality at the two stored forms with a
concrete colorsys interpretation. -/
theorem color_db_value_amended_witness :
    colorHexadecimalField_db_value "#aabbcc" = .ok "#aabbcc"
  ∧ colorHexadecimalField_python_value
      (fun r g b => (r, g, b)) (fun r g b => (r, g, b))
      (fun r g b => (r, g, b)) "#aabbcc"
    = colorHexadecimalField_python_value
      (fun r g b => (r, g, b)) (fun r g b => (r, g, b))
      (fun r g b => (r, g, b)) "#aabbcc" := by
  constructor
  · exact color_db_value_amended.2.2.1 "#abc" "#aabbcc" (by decide) (by decide)
  · exact color_db_value_amended.2.2.2 (Nat × Nat × Nat)
      (fun r g b => (r, g, b)) (fun r g b => (r, g, b))
      (fun r g b => (r, g, b)) "#aabbcc" "#aabbcc" (by decide) (by decide)

/-- C10: `db_value(None)` returns `None` unchanged for every field class this
repository defines and exports — the Positive* numeric fields, every
`_BaseRegexField` subclass (any regex and length bounds), both hexadecimal
fields, the IP address/network fields, the SWIFT/IBAN/IAN/SSN code fields,
the past date and datetime fields, the language/country/currency ISO fields,
`CharFieldCustom`, `CSVField`, `ColorHexadecimalField`, `EmailField`,
`MoneyField`, `XMLField`, `SimplePasswordField`, `PickledField`,
`PasswordField` and `ARCUITField` — because each one's validation sits under
a truthiness, `isinstance` or `is not None` guard; `JSONField.db_value`
instead raises `TypeError`, since `0 == len(value)` calls `len(None)`. -/
theorem db_value_none_passthrough :
    (∀ rx minLen maxLen, regexFieldDbValueOpt rx minLen maxLen none = .ok none)
    ∧ positiveSmallIntegerField_db_value_opt none = .ok none
    ∧ positiveIntegerField_db_value_opt none = .ok none
    ∧ positiveBigIntegerField_db_value_opt none = .ok none
    ∧ (∀ rb pyRound, positiveFloatField_db_value rb pyRound none = .ok none)
    ∧ (∀ rb qn, positiveDecimalField_db_value rb qn none = .ok none)
    ∧ (∀ unhex, hexadecimalField_db_value unhex none = .ok none)
    ∧ smallHexadecimalField_db_value none = .ok none
    ∧ (∀ ip, iPAddressField_db_value ip none = .ok none)
    ∧ (∀ net, iPNetworkField_db_value net none = .ok none)
    ∧ (∀ tbl, sWIFTISOCodeField_db_value tbl none = .ok none)
    ∧ (∀ tbl, ibanISOCodeField_db_value_opt tbl none = .ok none)
    ∧ iANCodeField_db_value_opt none = .ok none
    ∧ (∀ fmts now today,
        pastDateTimeField_db_value_opt fmts now today none = .ok none)
    ∧ (∀ fmts today, pastDateField_db_value_opt fmts today none = .ok none)
    ∧ (∀ tbl, languageISOCodeField_db_value tbl none = .ok none)
    ∧ (∀ tbl, countryISOCodeField_db_value_opt tbl none = .ok none)
    ∧ (∀ tbl, currencyISOCodeField_db_value tbl none = .ok none)
    ∧ (∀ lo ml bl wl fa fs subA subS,
        charFieldCustom_db_value lo ml bl wl fa fs subA subS none = .ok none)
    ∧ (∀ sep us uo so, cSVField_db_value sep us uo so none = .ok none)
    ∧ colorHexadecimalField_db_value_opt none = .ok none
    ∧ (∀ u d i, emailField_db_value u d i none = .ok none)
    ∧ uSSocialSecurityNumberField_db_value_opt none = .ok none
    ∧ moneyField_db_value none = .ok none
    ∧ (∀ px, xMLField_db_value px none = .ok none)
    ∧ (∀ ml pb, simplePasswordField_db_value ml pb none = .ok none)
    ∧ (∀ d : Nat → List Nat, pickledField_db_value d none = .ok none)
    ∧ (∀ e h, passwordField_db_value e h none = .ok none)
    ∧ aRCUITField_db_value none = .ok none
    ∧ (∀ lo, jSONField_db_value lo none = .error .typeError) :=
  ⟨fun _ _ _ => rfl, rfl, rfl, rfl, fun _ _ => rfl, fun _ _ => rfl,
   fun _ => rfl, rfl, fun _ => rfl, fun _ => rfl, fun _ => rfl, fun _ => rfl,
   rfl, fun _ _ _ => rfl, fun _ _ => rfl, fun _ => rfl, fun _ => rfl,
   fun _ => rfl, fun _ _ _ _ _ _ _ _ => rfl, fun _ _ _ _ => rfl, rfl,
   fun _ _ _ => rfl, rfl, rfl, fun _ => rfl, fun _ _ => rfl, fun _ => rfl,
   fun _ _ => rfl, rfl, fun _ => rfl⟩

end PeeweeExtra
